import Mathlib

/-!
# net-monitor: a verification development

A shallow embedding of `pkg/monitor` (`monitor.go`, `elastic.go`) of
`tjamet/net-monitor`, followed by theorems about endpoint selection, the
measurement cycle, the location refresh, the JSON codecs and the routing of
documents into yearly indices.

Conventions of the embedding.

* A Go pair `(value, error)` is a Lean pair whose second component is an
  `Option`; `none` is the `nil` error.  A pointer that may be `nil` is an
  `Option`.
* Calls on collaborators (`Tester`, `Indexer`, the process log) are recorded in
  an explicit trace of `Event`s, in the order in which the code performs them.
* A byte is a `Fin 256`; a byte slice is a `List Byte`, the `nil` slice and the
  empty slice being identified where the code only looks at the length.
* A Go `string` is a Lean `String`, that is, valid UTF-8 text.  A Go string that
  is not valid UTF-8 is outside the embedding: `encoding/json` writes it with
  U+FFFD in place of the invalid bytes, and never decodes to such a string.
* JSON text is carried by the tree it denotes (`Json`).  The conversions of the
  Go standard library between floats or IP addresses and text are parameters
  (`GoStd`); those the theorems evaluate (`net.ParseMAC`, `time.Parse` for the
  one layout used, the struct codec of `encoding/json`) are written out.
-/

namespace NetMonitor

/-! ## Data model (monitor.go) -/

/-- One byte. -/
abbrev Byte := Fin 256

/-- A `float64`, carried by its IEEE-754 bit pattern.  The code never computes
with floats, it only moves them. -/
structure Float64 where
  bits : Nat
deriving DecidableEq, Repr

/-- The float `0`, the zero value of a `float64` field. -/
def Float64.zero : Float64 := ⟨0⟩

/-- A `float32`, carried by its bit pattern. -/
structure Float32 where
  bits : Nat
deriving DecidableEq, Repr

/-- `net.IP`, a byte slice. -/
abbrev IP := List Byte

/-- `type HardwareAddr net.HardwareAddr`, a byte slice. -/
abbrev HardwareAddr := List Byte

/-- `type Header struct`; the field `Type` is spelled `Type_`. -/
structure Header where
  Type_ : String
  Timestamp : String
deriving DecidableEq, Repr

/-- `type Server struct`. -/
structure Server where
  ID : Int
  Name : String
  Location : String
  Country : String
  Host : String
  Port : Int
  IP : IP
deriving DecidableEq, Repr

/-- `type ServerList struct`; `Servers = none` is the `nil` slice. -/
structure ServerList where
  Header : Header
  Servers : Option (List Server)
deriving DecidableEq, Repr

/-- `type Ping struct`. -/
structure Ping where
  Jitter : Float64
  Latency : Float64
deriving DecidableEq, Repr

/-- `type Speed struct`; the fields are `uint32`. -/
structure Speed where
  Bandwidth : Nat
  Bytes : Nat
  Elapsed : Nat
deriving DecidableEq, Repr

/-- `type Interface struct`. -/
structure Interface where
  InternalIP : IP
  Name : String
  MacAddr : HardwareAddr
  IsVPN : Bool
  ExternalIP : IP
deriving DecidableEq, Repr

/-- `type Result struct`. -/
structure Result where
  ID : String
  URL : String
deriving DecidableEq, Repr

/-- `type TestResult struct`. -/
structure TestResult where
  Header : Header
  Ping : Ping
  Download : Speed
  Upload : Speed
  PacketLoss : Float64
  ISP : String
  Interface : NetMonitor.Interface
  Server : NetMonitor.Server
  Result : NetMonitor.Result
deriving DecidableEq, Repr

/-- `type GeoPoint struct`. -/
structure GeoPoint where
  Latitude : Float64
  Longitude : Float64
deriving DecidableEq, Repr

/-- `type Location struct`. -/
structure Location where
  Country : String
  CountryCode : String
  CountryCodeISO3 : String
  CountryCapital : String
  CountryTLD : String
  CountryName : String
  InEurope : Bool
  Postal : String
  Timezone : String
  UTCOffset : String
  CountryCallingCode : String
  Currency : String
  CurrencyName : String
  Languages : String
  ContryArea : Float64
  ContryPopulation : Float64
  ASN : String
  Org : String
  GeoPoint : NetMonitor.GeoPoint
deriving DecidableEq, Repr

/-- `type LocatedSpeed struct`; both fields are pointers. -/
structure LocatedSpeed where
  Result : Option TestResult
  Location : Option NetMonitor.Location
deriving DecidableEq, Repr

/-! ## JSON values -/

/-- A JSON number literal.  A literal without fraction and exponent is carried
by the integer it spells (`int`); every other literal, and `-0`, by its text. -/
inductive NumLit where
  | int (i : Int)
  | other (text : String)
deriving DecidableEq, Repr

/-- A JSON value.  An object keeps its members in the order of the text. -/
inductive Json where
  | null
  | bool (b : Bool)
  | num (n : NumLit)
  | str (s : String)
  | arr (items : List Json)
  | obj (members : List (String × Json))
deriving Repr

/-- The value of the last member named `key`, as a Go map built from the
members holds it. -/
def lookupLast {β : Type} (key : String) : List (String × β) → Option β
  | [] => none
  | (k, v) :: rest =>
    match lookupLast key rest with
    | some w => some w
    | none => if k = key then some v else none

/-- The keys of an object, empty for any other value. -/
def Json.keys : Json → List String
  | .obj members => members.map Prod.fst
  | _ => []

/-- The member `key` of an object. -/
def Json.member (key : String) : Json → Option Json
  | .obj members => lookupLast key members
  | _ => none

/-- Conversions of the Go language and standard library that the code calls
and that are not part of the repository. -/
structure GoStd where
  /-- The literal `encoding/json` writes for a float; `none` for NaN and the
  infinities, which the encoder refuses. -/
  formatFloat : Float64 → Option NumLit
  /-- The float `encoding/json` reads from a literal; `none` when out of range. -/
  parseFloat : NumLit → Option Float64
  /-- `net.IP.String` on an address of 4 or 16 bytes. -/
  ipString : IP → String
  /-- `net.ParseIP`; `none` is the `nil` result. -/
  parseIP : String → Option IP
  /-- The conversion `float64(f)` of a `float32`. -/
  float32to64 : Float32 → Float64

/-! ## Encoding (`encoding/json` over the struct tags of monitor.go) -/

/-- The hexadecimal digits of `net`, `"0123456789abcdef"`. -/
def hexDigit (n : Nat) : Char :=
  if n < 10 then Char.ofNat (48 + n) else Char.ofNat (87 + n)

/-- The bytes of `net.HardwareAddr.String` after the first one: each is preceded
by a colon. -/
def hwTail : List Byte → List Char
  | [] => []
  | b :: rest => ':' :: hexDigit (b.val / 16) :: hexDigit (b.val % 16) :: hwTail rest

/-- `net.HardwareAddr.String`: the empty address gives `""`, any other gives
its bytes in lower-case hexadecimal, separated by colons. -/
def hwString : HardwareAddr → String
  | [] => ""
  | b :: rest => String.mk (hexDigit (b.val / 16) :: hexDigit (b.val % 16) :: hwTail rest)

/-- `strings.ToUpper` on one character of ASCII text. -/
def upperChar (c : Char) : Char :=
  if 97 ≤ c.toNat ∧ c.toNat ≤ 122 then Char.ofNat (c.toNat - 32) else c

/-- `strings.ToUpper` on ASCII text. -/
def toUpper (s : String) : String := String.mk (s.data.map upperChar)

/-- `HardwareAddr.MarshalJSON`: the string of the address between double
quotes, in upper case; it never fails.  The returned text is carried by the
JSON string it spells. -/
def HardwareAddr.MarshalJSON (a : HardwareAddr) : Json :=
  .str (toUpper (hwString a))

/-- `net.IP.MarshalText`: `""` for an address of length 0, an error for a
length other than 4 and 16. -/
def ipMarshalText (std : GoStd) (ip : IP) : Option String :=
  if ip.length = 0 then some ""
  else if ip.length ≠ 4 ∧ ip.length ≠ 16 then none
  else some (std.ipString ip)

/-- A float field. -/
def encodeFloat (std : GoStd) (f : Float64) : Option Json :=
  (std.formatFloat f).map Json.num

/-- The members of the embedded `Header`. -/
def Header.members (h : Header) : List (String × Json) :=
  [("type", .str h.Type_), ("timestamp", .str h.Timestamp)]

/-- Encoding of a `Server`; `ip` carries `omitempty`. -/
def Server.encode (std : GoStd) (s : Server) : Option Json := do
  let ip ← ipMarshalText std s.IP
  pure (.obj ([("id", .num (.int s.ID)), ("name", .str s.Name),
    ("location", .str s.Location), ("country", .str s.Country),
    ("host", .str s.Host), ("port", .num (.int s.Port))]
    ++ (if s.IP.length = 0 then [] else [("ip", .str ip)])))

/-- Encoding of a slice of servers, element by element. -/
def encodeServers (std : GoStd) : List Server → Option (List Json)
  | [] => some []
  | s :: rest => do
    let j ← Server.encode std s
    let js ← encodeServers std rest
    pure (j :: js)

/-- Encoding of a `ServerList`; the `nil` slice is written `null`. -/
def ServerList.encode (std : GoStd) (l : ServerList) : Option Json := do
  let servers ← match l.Servers with
    | none => some Json.null
    | some xs => (encodeServers std xs).map Json.arr
  pure (.obj (l.Header.members ++ [("servers", servers)]))

/-- Encoding of a `Ping`. -/
def Ping.encode (std : GoStd) (p : Ping) : Option Json := do
  let jitter ← encodeFloat std p.Jitter
  let latency ← encodeFloat std p.Latency
  pure (.obj [("jitter", jitter), ("latency", latency)])

/-- Encoding of a `Speed`. -/
def Speed.encode (s : Speed) : Json :=
  .obj [("bandwidth", .num (.int s.Bandwidth)), ("bytes", .num (.int s.Bytes)),
    ("elapsed", .num (.int s.Elapsed))]

/-- Encoding of an `Interface`. -/
def Interface.encode (std : GoStd) (i : Interface) : Option Json := do
  let internal ← ipMarshalText std i.InternalIP
  let external ← ipMarshalText std i.ExternalIP
  pure (.obj [("internalIp", .str internal), ("name", .str i.Name),
    ("macAddr", HardwareAddr.MarshalJSON i.MacAddr), ("isVpn", .bool i.IsVPN),
    ("externalIp", .str external)])

/-- Encoding of a `Result`. -/
def Result.encode (r : Result) : Json :=
  .obj [("id", .str r.ID), ("url", .str r.URL)]

/-- Encoding of a `TestResult`; the members of `Header` come first. -/
def TestResult.encode (std : GoStd) (r : TestResult) : Option Json := do
  let ping ← Ping.encode std r.Ping
  let loss ← encodeFloat std r.PacketLoss
  let iface ← Interface.encode std r.Interface
  let server ← Server.encode std r.Server
  pure (.obj (r.Header.members ++ [("ping", ping), ("download", r.Download.encode),
    ("upload", r.Upload.encode), ("packetLoss", loss), ("isp", .str r.ISP),
    ("interface", iface), ("server", server), ("result", r.Result.encode)]))

/-- Encoding of a `GeoPoint`. -/
def GeoPoint.encode (std : GoStd) (g : GeoPoint) : Option Json := do
  let lat ← encodeFloat std g.Latitude
  let lon ← encodeFloat std g.Longitude
  pure (.obj [("lat", lat), ("lon", lon)])

/-- Encoding of a `Location`. -/
def Location.encode (std : GoStd) (l : Location) : Option Json := do
  let area ← encodeFloat std l.ContryArea
  let population ← encodeFloat std l.ContryPopulation
  let point ← GeoPoint.encode std l.GeoPoint
  pure (.obj [("country", .str l.Country), ("country_code", .str l.CountryCode),
    ("country_code_iso3", .str l.CountryCodeISO3),
    ("country_capital", .str l.CountryCapital), ("country_tld", .str l.CountryTLD),
    ("country_name", .str l.CountryName), ("in_eu", .bool l.InEurope),
    ("postal", .str l.Postal), ("timezone", .str l.Timezone),
    ("utc_offset", .str l.UTCOffset),
    ("country_calling_code", .str l.CountryCallingCode),
    ("currency", .str l.Currency), ("currency_name", .str l.CurrencyName),
    ("languages", .str l.Languages), ("country_area", area),
    ("country_population", population), ("asn", .str l.ASN), ("org", .str l.Org),
    ("geo_point", point)])

/-- Encoding of a `LocatedSpeed`: a `nil` result is written `null`; `location`
carries `omitempty`, so a `nil` location writes no member at all. -/
def LocatedSpeed.encode (std : GoStd) (d : LocatedSpeed) : Option Json := do
  let result ← match d.Result with
    | none => some Json.null
    | some r => TestResult.encode std r
  let location ← match d.Location with
    | none => some []
    | some l => (Location.encode std l).map (fun j => [("location", j)])
  pure (.obj (("result", result) :: location))

/-! ## Hardware addresses (`net.ParseMAC`, `HardwareAddr.UnmarshalJSON`) -/

/-- The value of one hexadecimal digit, as `xtoi` of package `net` reads it. -/
def hexVal (c : Char) : Option Nat :=
  if 48 ≤ c.toNat ∧ c.toNat ≤ 57 then some (c.toNat - 48)
  else if 97 ≤ c.toNat ∧ c.toNat ≤ 102 then some (c.toNat - 97 + 10)
  else if 65 ≤ c.toNat ∧ c.toNat ≤ 70 then some (c.toNat - 65 + 10)
  else none

/-- The loop of `xtoi`: `n` is the number read so far and `i` the count of
digits consumed; the result is `(n, i, ok)`. -/
def xtoiLoop (n i : Nat) : List Char → Nat × Nat × Bool
  | [] => if i = 0 then (0, i, false) else (n, i, true)
  | c :: rest =>
    match hexVal c with
    | none => if i = 0 then (0, i, false) else (n, i, true)
    | some d => if n * 16 + d ≥ 0xFFFFFF then (0, i, false) else xtoiLoop (n * 16 + d) (i + 1) rest

/-- `xtoi`: hexadecimal to integer; number, characters consumed, success. -/
def xtoi (s : List Char) : Nat × Nat × Bool := xtoiLoop 0 0 s

/-- `xtoi2`: the next two hex digits of `s` as a byte; when `s` is longer than
two characters the third must be `e`.  `ParseMAC` only calls it on at least two
characters. -/
def xtoi2 (s : List Char) (e : Char) : Option Byte :=
  if s.length > 2 ∧ s.get? 2 ≠ some e then none
  else
    match xtoi (s.take 2) with
    | (n, ei, ok) => if ok ∧ ei = 2 then some (Fin.ofNat n) else none

/-- The loop of `ParseMAC` over groups of two digits (`x += 3`), `n` groups
remaining. -/
def macGroups2 (sep : Char) : Nat → List Char → Option (List Byte)
  | 0, _ => some []
  | n + 1, s => do
    let b ← xtoi2 s sep
    let rest ← macGroups2 sep n (s.drop 3)
    pure (b :: rest)

/-- The loop of `ParseMAC` over groups of four digits (`x += 5`), `n` groups
remaining. -/
def macGroups4 (sep : Char) : Nat → List Char → Option (List Byte)
  | 0, _ => some []
  | n + 1, s => do
    let b0 ← xtoi2 (s.take 2) (Char.ofNat 0)
    let b1 ← xtoi2 (s.drop 2) sep
    let rest ← macGroups4 sep n (s.drop 5)
    pure (b0 :: b1 :: rest)

/-- `net.ParseMAC`; `none` is the error "invalid MAC address".  A text that
parses is ASCII, so its characters are its bytes. -/
def ParseMAC (s : String) : Option HardwareAddr :=
  let cs := s.data
  if cs.length < 14 then none
  else if cs.get? 2 = some ':' ∨ cs.get? 2 = some '-' then
    if (cs.length + 1) % 3 ≠ 0 then none
    else
      let n := (cs.length + 1) / 3
      if n ≠ 6 ∧ n ≠ 8 ∧ n ≠ 20 then none
      else macGroups2 ((cs.get? 2).getD ':') n cs
  else if cs.get? 4 = some '.' then
    if (cs.length + 1) % 5 ≠ 0 then none
    else
      let n := 2 * (cs.length + 1) / 5
      if n ≠ 6 ∧ n ≠ 8 ∧ n ≠ 20 then none
      else macGroups4 '.' (n / 2) cs
  else none

/-- `HardwareAddr.UnmarshalJSON`: `json.Unmarshal(data, &s)` leaves `s` empty
unless `data` is a JSON string (its error is dropped); the address is what
`net.ParseMAC(s)` returns, and its error is returned. -/
def HardwareAddr.UnmarshalJSON (data : Json) : Option HardwareAddr :=
  let s := match data with
    | .str s => s
    | _ => ""
  ParseMAC s

/-! ## Decoding (`encoding/json` over the struct tags of monitor.go)

Every decoder takes the value decoded into, as `encoding/json` does: a member
that is absent leaves a field as it was, `null` leaves a scalar or a struct as it
was, and the members of an object are applied in the order of the text.  `none`
is any error of the decoder. -/

/-- Case folding of one character of an object key. -/
def foldChar (c : Char) : Char :=
  if 97 ≤ c.toNat ∧ c.toNat ≤ 122 then Char.ofNat (c.toNat - 32)
  else if c.toNat = 0x212A then 'K'
  else if c.toNat = 0x17F then 'S'
  else c

/-- An object key selects the field whose name it equals, exactly or up to case
folding.  No two names of one struct of this package are equal up to folding. -/
def foldEq (key name : String) : Bool :=
  key.data.map foldChar == name.data.map foldChar

/-- The members of an object applied in order to the value decoded into. -/
def decodeMembers {α : Type} (step : String → Json → α → Option α) :
    List (String × Json) → α → Option α
  | [], a => some a
  | (k, v) :: rest, a =>
    match step k v a with
    | none => none
    | some b => decodeMembers step rest b

/-- Decoding into a struct: an object is applied member by member, `null` has
no effect, any other value is an error. -/
def decodeStruct {α : Type} (step : String → Json → α → Option α) (j : Json) (a : α) :
    Option α :=
  match j with
  | .obj members => decodeMembers step members a
  | .null => some a
  | _ => none

/-- Decoding into a `string`. -/
def decodeString (j : Json) (old : String) : Option String :=
  match j with
  | .null => some old
  | .str s => some s
  | _ => none

/-- Decoding into a `bool`. -/
def decodeBool (j : Json) (old : Bool) : Option Bool :=
  match j with
  | .null => some old
  | .bool b => some b
  | _ => none

/-- Decoding into an `int` (64 bits). -/
def decodeInt (j : Json) (old : Int) : Option Int :=
  match j with
  | .null => some old
  | .num (.int i) => if -2 ^ 63 ≤ i ∧ i < 2 ^ 63 then some i else none
  | .num (.other t) => if t = "-0" then some 0 else none
  | _ => none

/-- Decoding into a `uint32`. -/
def decodeUint32 (j : Json) (old : Nat) : Option Nat :=
  match j with
  | .null => some old
  | .num (.int i) => if 0 ≤ i ∧ i < 2 ^ 32 then some i.toNat else none
  | _ => none

/-- Decoding into a `float64`. -/
def decodeFloat (std : GoStd) (j : Json) (old : Float64) : Option Float64 :=
  match j with
  | .null => some old
  | .num n => std.parseFloat n
  | _ => none

/-- `net.IP.UnmarshalText`: the empty text gives the `nil` address. -/
def ipUnmarshalText (std : GoStd) (text : String) : Option IP :=
  if text.length = 0 then some [] else std.parseIP text

/-- Decoding into a `net.IP`: `null` sets the `nil` address, a string goes
through `UnmarshalText`. -/
def decodeIP (std : GoStd) (j : Json) : Option IP :=
  match j with
  | .null => some []
  | .str s => ipUnmarshalText std s
  | _ => none

/-- One member of an object decoded into a `Server`. -/
def Server.setField (std : GoStd) (key : String) (v : Json) (s : Server) : Option Server :=
  if foldEq key "id" then (decodeInt v s.ID).map (fun x => { s with ID := x })
  else if foldEq key "name" then (decodeString v s.Name).map (fun x => { s with Name := x })
  else if foldEq key "location" then
    (decodeString v s.Location).map (fun x => { s with Location := x })
  else if foldEq key "country" then
    (decodeString v s.Country).map (fun x => { s with Country := x })
  else if foldEq key "host" then (decodeString v s.Host).map (fun x => { s with Host := x })
  else if foldEq key "port" then (decodeInt v s.Port).map (fun x => { s with Port := x })
  else if foldEq key "ip" then (decodeIP std v).map (fun x => { s with IP := x })
  else some s

/-- Decoding into a `Server`. -/
def Server.decode (std : GoStd) (j : Json) (s : Server) : Option Server :=
  decodeStruct (Server.setField std) j s

/-- The zero value of `Server`. -/
def Server.zero : Server := ⟨0, "", "", "", "", 0, []⟩

/-- Decoding the items of an array into a slice: item `i` is decoded into
element `i` when the slice has one, into a zero element otherwise, and the slice
ends with the array. -/
def decodeServerItems (std : GoStd) : List Json → List Server → Option (List Server)
  | [], _ => some []
  | j :: js, [] => do
    let s ← Server.decode std j Server.zero
    let rest ← decodeServerItems std js []
    pure (s :: rest)
  | j :: js, old :: olds => do
    let s ← Server.decode std j old
    let rest ← decodeServerItems std js olds
    pure (s :: rest)

/-- Decoding into a `[]Server`: `null` sets the `nil` slice. -/
def decodeServers (std : GoStd) (j : Json) (old : Option (List Server)) :
    Option (Option (List Server)) :=
  match j with
  | .null => some none
  | .arr items => (decodeServerItems std items (old.getD [])).map some
  | _ => none

/-- One member of an object decoded into a `ServerList`; the fields of the
embedded `Header` are members of the same object. -/
def ServerList.setField (std : GoStd) (key : String) (v : Json) (l : ServerList) :
    Option ServerList :=
  if foldEq key "type" then
    (decodeString v l.Header.Type_).map (fun x => { l with Header := { l.Header with Type_ := x } })
  else if foldEq key "timestamp" then
    (decodeString v l.Header.Timestamp).map
      (fun x => { l with Header := { l.Header with Timestamp := x } })
  else if foldEq key "servers" then
    (decodeServers std v l.Servers).map (fun x => { l with Servers := x })
  else some l

/-- Decoding into a `ServerList`. -/
def ServerList.decode (std : GoStd) (j : Json) (l : ServerList) : Option ServerList :=
  decodeStruct (ServerList.setField std) j l

/-- The zero value of `ServerList`. -/
def ServerList.zero : ServerList := ⟨⟨"", ""⟩, none⟩

/-- One member of an object decoded into a `Ping`. -/
def Ping.setField (std : GoStd) (key : String) (v : Json) (p : Ping) : Option Ping :=
  if foldEq key "jitter" then (decodeFloat std v p.Jitter).map (fun x => { p with Jitter := x })
  else if foldEq key "latency" then
    (decodeFloat std v p.Latency).map (fun x => { p with Latency := x })
  else some p

/-- Decoding into a `Ping`. -/
def Ping.decode (std : GoStd) (j : Json) (p : Ping) : Option Ping :=
  decodeStruct (Ping.setField std) j p

/-- One member of an object decoded into a `Speed`. -/
def Speed.setField (key : String) (v : Json) (s : Speed) : Option Speed :=
  if foldEq key "bandwidth" then
    (decodeUint32 v s.Bandwidth).map (fun x => { s with Bandwidth := x })
  else if foldEq key "bytes" then (decodeUint32 v s.Bytes).map (fun x => { s with Bytes := x })
  else if foldEq key "elapsed" then
    (decodeUint32 v s.Elapsed).map (fun x => { s with Elapsed := x })
  else some s

/-- Decoding into a `Speed`. -/
def Speed.decode (j : Json) (s : Speed) : Option Speed :=
  decodeStruct Speed.setField j s

/-- One member of an object decoded into an `Interface`; `macAddr` goes through
`HardwareAddr.UnmarshalJSON`, whatever the JSON value is. -/
def Interface.setField (std : GoStd) (key : String) (v : Json) (i : Interface) :
    Option Interface :=
  if foldEq key "internalIp" then (decodeIP std v).map (fun x => { i with InternalIP := x })
  else if foldEq key "name" then (decodeString v i.Name).map (fun x => { i with Name := x })
  else if foldEq key "macAddr" then
    (HardwareAddr.UnmarshalJSON v).map (fun x => { i with MacAddr := x })
  else if foldEq key "isVpn" then (decodeBool v i.IsVPN).map (fun x => { i with IsVPN := x })
  else if foldEq key "externalIp" then (decodeIP std v).map (fun x => { i with ExternalIP := x })
  else some i

/-- Decoding into an `Interface`. -/
def Interface.decode (std : GoStd) (j : Json) (i : Interface) : Option Interface :=
  decodeStruct (Interface.setField std) j i

/-- One member of an object decoded into a `Result`. -/
def Result.setField (key : String) (v : Json) (r : Result) : Option Result :=
  if foldEq key "id" then (decodeString v r.ID).map (fun x => { r with ID := x })
  else if foldEq key "url" then (decodeString v r.URL).map (fun x => { r with URL := x })
  else some r

/-- Decoding into a `Result`. -/
def Result.decode (j : Json) (r : Result) : Option Result :=
  decodeStruct Result.setField j r

/-- One member of an object decoded into a `TestResult`. -/
def TestResult.setField (std : GoStd) (key : String) (v : Json) (r : TestResult) :
    Option TestResult :=
  if foldEq key "type" then
    (decodeString v r.Header.Type_).map (fun x => { r with Header := { r.Header with Type_ := x } })
  else if foldEq key "timestamp" then
    (decodeString v r.Header.Timestamp).map
      (fun x => { r with Header := { r.Header with Timestamp := x } })
  else if foldEq key "ping" then (Ping.decode std v r.Ping).map (fun x => { r with Ping := x })
  else if foldEq key "download" then
    (Speed.decode v r.Download).map (fun x => { r with Download := x })
  else if foldEq key "upload" then (Speed.decode v r.Upload).map (fun x => { r with Upload := x })
  else if foldEq key "packetLoss" then
    (decodeFloat std v r.PacketLoss).map (fun x => { r with PacketLoss := x })
  else if foldEq key "isp" then (decodeString v r.ISP).map (fun x => { r with ISP := x })
  else if foldEq key "interface" then
    (Interface.decode std v r.Interface).map (fun x => { r with Interface := x })
  else if foldEq key "server" then
    (Server.decode std v r.Server).map (fun x => { r with Server := x })
  else if foldEq key "result" then
    (Result.decode v r.Result).map (fun x => { r with Result := x })
  else some r

/-- Decoding into a `TestResult`. -/
def TestResult.decode (std : GoStd) (j : Json) (r : TestResult) : Option TestResult :=
  decodeStruct (TestResult.setField std) j r

/-- The zero value of `TestResult`. -/
def TestResult.zero : TestResult :=
  ⟨⟨"", ""⟩, ⟨Float64.zero, Float64.zero⟩, ⟨0, 0, 0⟩, ⟨0, 0, 0⟩, Float64.zero, "",
    ⟨[], "", [], false, []⟩, Server.zero, ⟨"", ""⟩⟩

/-! ## Locations (`firstFloat64`, `GeoPoint.UnmarshalJSON`, `Location.UnmarshalJSON`) -/

/-- A value of type `interface{}`: what `encoding/json` stores for a JSON value
(`nil`, `bool`, `float64`, `string`, slice, map), and `float32`, which
`firstFloat64` also looks for. -/
inductive Any where
  | nil
  | bool (b : Bool)
  | float64 (f : Float64)
  | float32 (f : Float32)
  | string (s : String)
  | slice (items : List Any)
  | map (entries : List (String × Any))
deriving Repr

mutual
/-- The `interface{}` value `encoding/json` stores for a JSON value; a number
becomes a `float64`, and a number out of range is an error. -/
def Json.toAny (std : GoStd) : Json → Option Any
  | .null => some .nil
  | .bool b => some (.bool b)
  | .num n => (std.parseFloat n).map Any.float64
  | .str s => some (.string s)
  | .arr items => (Json.toAnyItems std items).map Any.slice
  | .obj members => (Json.toAnyMembers std members).map Any.map
/-- The items of an array as `interface{}` values. -/
def Json.toAnyItems (std : GoStd) : List Json → Option (List Any)
  | [] => some []
  | j :: js => do
    let a ← Json.toAny std j
    let rest ← Json.toAnyItems std js
    pure (a :: rest)
/-- The members of an object as `interface{}` values. -/
def Json.toAnyMembers (std : GoStd) : List (String × Json) → Option (List (String × Any))
  | [] => some []
  | (k, j) :: js => do
    let a ← Json.toAny std j
    let rest ← Json.toAnyMembers std js
    pure ((k, a) :: rest)
end

/-- `json.Unmarshal(b, &m)` for `m := map[string]interface{}{}`: an object
fills the map, `null` sets the `nil` map, any other value is an error. -/
def unmarshalMap (std : GoStd) (b : Json) : Option (List (String × Any)) :=
  match b with
  | .obj members => Json.toAnyMembers std members
  | .null => some []
  | _ => none

/-- The index expression `m[key]`: the `nil` interface when the key is absent. -/
def mapIndex (m : List (String × Any)) (key : String) : Any :=
  (lookupLast key m).getD .nil

/-- `firstFloat64`: the first argument that is a `float64` or a `float32`, and
`0` when there is none. -/
def firstFloat64 (std : GoStd) : List Any → Float64
  | [] => Float64.zero
  | .float64 f :: _ => f
  | .float32 f :: _ => std.float32to64 f
  | _ :: rest => firstFloat64 std rest

/-- `GeoPoint.UnmarshalJSON`. -/
def GeoPoint.UnmarshalJSON (std : GoStd) (b : Json) (l : GeoPoint) : Option GeoPoint :=
  match unmarshalMap std b with
  | none => none
  | some m =>
    let l1 := { l with Latitude := firstFloat64 std [mapIndex m "latitude", mapIndex m "lat"] }
    some { l1 with Longitude := firstFloat64 std [mapIndex m "longitude", mapIndex m "lat"] }

/-- One member of an object decoded into `Alias`, the type `Location` without
its methods; `geo_point` goes through `GeoPoint.UnmarshalJSON`. -/
def Location.setField (std : GoStd) (key : String) (v : Json) (l : Location) :
    Option Location :=
  if foldEq key "country" then (decodeString v l.Country).map (fun x => { l with Country := x })
  else if foldEq key "country_code" then
    (decodeString v l.CountryCode).map (fun x => { l with CountryCode := x })
  else if foldEq key "country_code_iso3" then
    (decodeString v l.CountryCodeISO3).map (fun x => { l with CountryCodeISO3 := x })
  else if foldEq key "country_capital" then
    (decodeString v l.CountryCapital).map (fun x => { l with CountryCapital := x })
  else if foldEq key "country_tld" then
    (decodeString v l.CountryTLD).map (fun x => { l with CountryTLD := x })
  else if foldEq key "country_name" then
    (decodeString v l.CountryName).map (fun x => { l with CountryName := x })
  else if foldEq key "in_eu" then (decodeBool v l.InEurope).map (fun x => { l with InEurope := x })
  else if foldEq key "postal" then (decodeString v l.Postal).map (fun x => { l with Postal := x })
  else if foldEq key "timezone" then
    (decodeString v l.Timezone).map (fun x => { l with Timezone := x })
  else if foldEq key "utc_offset" then
    (decodeString v l.UTCOffset).map (fun x => { l with UTCOffset := x })
  else if foldEq key "country_calling_code" then
    (decodeString v l.CountryCallingCode).map (fun x => { l with CountryCallingCode := x })
  else if foldEq key "currency" then
    (decodeString v l.Currency).map (fun x => { l with Currency := x })
  else if foldEq key "currency_name" then
    (decodeString v l.CurrencyName).map (fun x => { l with CurrencyName := x })
  else if foldEq key "languages" then
    (decodeString v l.Languages).map (fun x => { l with Languages := x })
  else if foldEq key "country_area" then
    (decodeFloat std v l.ContryArea).map (fun x => { l with ContryArea := x })
  else if foldEq key "country_population" then
    (decodeFloat std v l.ContryPopulation).map (fun x => { l with ContryPopulation := x })
  else if foldEq key "asn" then (decodeString v l.ASN).map (fun x => { l with ASN := x })
  else if foldEq key "org" then (decodeString v l.Org).map (fun x => { l with Org := x })
  else if foldEq key "geo_point" then
    (GeoPoint.UnmarshalJSON std v l.GeoPoint).map (fun x => { l with GeoPoint := x })
  else some l

/-- `Location.UnmarshalJSON`: the object is decoded into the fields by their
tags, then once more into `l.GeoPoint`. -/
def Location.UnmarshalJSON (std : GoStd) (b : Json) (l : Location) : Option Location :=
  match decodeStruct (Location.setField std) b l with
  | none => none
  | some l1 => (GeoPoint.UnmarshalJSON std b l1.GeoPoint).map (fun g => { l1 with GeoPoint := g })

/-- The zero value of `Location`. -/
def Location.zero : Location :=
  ⟨"", "", "", "", "", "", false, "", "", "", "", "", "", "", Float64.zero, Float64.zero, "", "",
    ⟨Float64.zero, Float64.zero⟩⟩

/-! ## The measurement executor and endpoint selection (monitor.go) -/

/-- An error value made outside `Run`: by the JSON decoder (`decode`) or by a
collaborator, the operating system or the network (`failure`). -/
inductive ExtError where
  | decode
  | failure (msg : String)
deriving DecidableEq, Repr

/-- The error returned by `Run`: the one it makes itself with
`errors.New("did not find any matching server")`, or the one `Test` returned. -/
inductive RunError where
  | didNotFindAnyMatchingServer
  | other (e : ExtError)
deriving DecidableEq, Repr

/-- `type Tester interface`. -/
structure Tester where
  ListServers : Unit → List Server × Option ExtError
  Test : Server → Option TestResult × Option ExtError

/-- `type Indexer interface`. -/
structure Indexer where
  Index : LocatedSpeed → Option ExtError

/-- `type Locator func() (*Location, error)`. -/
abbrev Locator := Unit → Option Location × Option ExtError

/-- `type Monitor struct`. -/
structure Monitor where
  Indexer : NetMonitor.Indexer
  Locate : Locator
  SpeedTester : Tester
  Preferred : List String
  Location : Option NetMonitor.Location

/-- A line written with `log.Printf` or `log.Println`. -/
inductive LogLine where
  | startingSpeedtest
  | errorRunningSpeedTest (e : RunError)
  | document (text : Json)
  | errorIndexingTestResult (e : ExtError)
deriving Repr

/-- A call on a collaborator, or a line of the log. -/
inductive Event where
  | listServers
  | test (server : Server)
  | index (doc : LocatedSpeed)
  | log (line : LogLine)
deriving Repr

/-- The standard output of the measurement program: the first JSON value it
holds, `none` when it does not start with one. -/
abbrev Stdout := Option Json

/-- Running an external program (`exec.Command(name, args...).Run()`): its
standard output, or the error of `Run`. -/
abbrev Exec := String → List String → Except ExtError Stdout

/-- `type SpeedTest struct`. -/
structure SpeedTest where
  Executable : String
deriving DecidableEq, Repr

/-- `SpeedTest.run`: a `nil` receiver is replaced by an empty `SpeedTest` and an
empty `Executable` by `"speedtest"`. -/
def SpeedTest.run (os : Exec) (s : Option SpeedTest) (args : List String) :
    Option Stdout × Option ExtError :=
  let s := s.getD ⟨""⟩
  let s := if s.Executable = "" then { s with Executable := "speedtest" } else s
  match os s.Executable args with
  | .error err => (none, some err)
  | .ok out => (some out, none)

/-- `SpeedTest.ListServers`. -/
def SpeedTest.ListServers (std : GoStd) (os : Exec) (s : Option SpeedTest) :
    List Server × Option ExtError :=
  match SpeedTest.run os s ["-L", "-fjson"] with
  | (_, some err) => ([], some err)
  | (out, none) =>
    match out.join with
    | none => ([], some .decode)
    | some j =>
      match ServerList.decode std j ServerList.zero with
      | none => ([], some .decode)
      | some list => (list.Servers.getD [], none)

/-- `SpeedTest.Test`.  A failure of the program returns `nil, nil`; a failure of
the decoder returns `nil, err`.  `Decode(&results)` decodes into a pointer, which
`null` sets to `nil`. -/
def SpeedTest.Test (std : GoStd) (os : Exec) (s : Option SpeedTest) (server : Server) :
    Option TestResult × Option ExtError :=
  match SpeedTest.run os s
      ["--accept-license", "--accept-gdpr", "-s" ++ toString server.ID, "-fjson"] with
  | (_, some _) => (none, none)
  | (out, none) =>
    match out.join with
    | none => (none, some .decode)
    | some .null => (none, none)
    | some j =>
      match TestResult.decode std j TestResult.zero with
      | none => (none, some .decode)
      | some results => (some results, none)

/-- A `SpeedTest` as a `Tester`. -/
def SpeedTest.toTester (std : GoStd) (os : Exec) (s : Option SpeedTest) : Tester :=
  ⟨fun _ => SpeedTest.ListServers std os s, SpeedTest.Test std os s⟩

/-- `oneOf`. -/
def oneOf (candidate : String) : List String → Bool
  | [] => false
  | c :: rest => if candidate = c then true else oneOf candidate rest

/-- `Run`.  `draw` is the random source: `rand.Intn(n)` is `draw % n`, which
takes every value below `n` as `draw` varies.  The result is the trace of calls
on the `Tester` and the returned pair. -/
def Run (s : Tester) (preferred : List String) (draw : Nat) :
    List Event × Option TestResult × Option RunError :=
  match s.ListServers () with
  | (_, some _) => ([.listServers], none, none)
  | (servers, none) =>
    let servers :=
      if preferred.length > 0 then
        let svs := servers.filter (fun s => oneOf s.Name preferred)
        if svs.length > 0 then svs else servers
      else servers
    let server : Option Server :=
      if servers.length > 0 then servers.get? (draw % servers.length) else none
    match server with
    | none => ([.listServers], none, some .didNotFindAnyMatchingServer)
    | some sv => ([.listServers, .test sv], (s.Test sv).1, (s.Test sv).2.map RunError.other)

/-- `Monitor.updateLocation`. -/
def Monitor.updateLocation (m : Monitor) : Monitor :=
  match m.Locate () with
  | (l, none) => { m with Location := l }
  | (_, some _) => m

/-- `Monitor.runSpeedTest`: the trace of the cycle.  The document is logged
when it encodes, and handed to the `Indexer` either way. -/
def Monitor.runSpeedTest (std : GoStd) (m : Monitor) (draw : Nat) : List Event :=
  match Run m.SpeedTester m.Preferred draw with
  | (calls, _, some err) =>
    [.log .startingSpeedtest] ++ calls ++ [.log (.errorRunningSpeedTest err)]
  | (calls, results, none) =>
    let doc : LocatedSpeed := { Location := m.Location, Result := results }
    let logged : List Event :=
      match LocatedSpeed.encode std doc with
      | some b => [.log (.document b)]
      | none => []
    let indexed : List Event :=
      match m.Indexer.Index doc with
      | some err => [.index doc, .log (.errorIndexingTestResult err)]
      | none => [.index doc]
    [.log .startingSpeedtest] ++ calls ++ logged ++ indexed

/-! ## The result store (elastic.go)

`time.Parse` is written out for the one layout the indexer uses,
`"2006-01-02T15:04:05Z07"`, following package `time` of Go 1.20 and later. -/

/-- The wall clock reading of a `time.Time` in its own location, as
`time.Parse` builds it, and the offset of that location in seconds. -/
structure Time where
  year : Nat
  month : Nat
  day : Nat
  hour : Nat
  min : Nat
  sec : Nat
  zoneOffset : Int
deriving DecidableEq, Repr

/-- `isDigit` of package `time`: whether `s[i]` exists and is a decimal digit. -/
def isDigit (s : List Char) (i : Nat) : Bool :=
  match s.get? i with
  | some c => decide (48 ≤ c.toNat ∧ c.toNat ≤ 57)
  | none => false

/-- `getnum`: a one or two digit number at the start of `s`, two digits exactly
when `fixed`; the number and the rest of the text. -/
def getnum (s : List Char) (fixed : Bool) : Option (Nat × List Char) :=
  match s with
  | c0 :: rest =>
    if !isDigit s 0 then none
    else if !isDigit s 1 then
      if fixed then none else some (c0.toNat - 48, rest)
    else
      match rest with
      | c1 :: rest2 => some ((c0.toNat - 48) * 10 + (c1.toNat - 48), rest2)
      | [] => none
  | [] => none

/-- `skip` for a one character prefix of the layout: the character must be next. -/
def skipChar (c : Char) : List Char → Option (List Char)
  | d :: rest => if d = c then some rest else none
  | [] => none

/-- The four digit year (`stdLongYear`): four characters, all digits. -/
def getYear (s : List Char) : Option (Nat × List Char) :=
  match s with
  | a :: b :: c :: d :: rest =>
    if isDigit s 0 ∧ isDigit s 1 ∧ isDigit s 2 ∧ isDigit s 3 then
      some ((a.toNat - 48) * 1000 + (b.toNat - 48) * 100 + (c.toNat - 48) * 10 + (d.toNat - 48),
        rest)
    else none
  | _ => none

/-- The digits that follow at the start of `s`, dropped. -/
def dropDigits : List Char → List Char
  | c :: rest => if 48 ≤ c.toNat ∧ c.toNat ≤ 57 then dropDigits rest else c :: rest
  | [] => []

/-- A fractional second in the text and none in the layout: a period or a comma
followed by a digit is read with all the digits that follow. -/
def skipFraction (s : List Char) : List Char :=
  match s with
  | c :: rest => if (c = '.' ∨ c = ',') ∧ isDigit s 1 then dropDigits rest else s
  | [] => s

/-- The zone (`stdISO8601ShortTZ`, `Z07`): `Z`, or a sign and two digits of
hours, at most 24.  The offset in seconds and the rest of the text. -/
def getZone (s : List Char) : Option (Int × List Char) :=
  match s with
  | 'Z' :: rest => some (0, rest)
  | sign :: h0 :: h1 :: rest =>
    match getnum [h0, h1] true with
    | none => none
    | some (hr, _) =>
      if hr > 24 then none
      else if sign = '+' then some ((hr * 3600 : Nat), rest)
      else if sign = '-' then some (-((hr * 3600 : Nat) : Int), rest)
      else none
  | _ => none

/-- `isLeap`. -/
def isLeap (year : Nat) : Bool :=
  year % 4 = 0 ∧ (year % 100 ≠ 0 ∨ year % 400 = 0)

/-- `daysIn`: the number of days of a month of a year. -/
def daysIn (month year : Nat) : Nat :=
  if month = 2 then (if isLeap year then 29 else 28)
  else if month = 4 ∨ month = 6 ∨ month = 9 ∨ month = 11 then 30
  else 31

/-- `time.Parse("2006-01-02T15:04:05Z07", value)` on the characters of
`value`; `none` is any error. -/
def timeParseChars (value : List Char) : Option Time :=
  (getYear value).bind fun (year, v) =>
  (skipChar '-' v).bind fun v =>
  (getnum v true).bind fun (month, v) =>
  if month = 0 ∨ 12 < month then none
  else
  (skipChar '-' v).bind fun v =>
  (getnum v true).bind fun (day, v) =>
  (skipChar 'T' v).bind fun v =>
  (getnum v false).bind fun (hour, v) =>
  if 24 ≤ hour then none
  else
  (skipChar ':' v).bind fun v =>
  (getnum v true).bind fun (min, v) =>
  if 60 ≤ min then none
  else
  (skipChar ':' v).bind fun v =>
  (getnum v true).bind fun (sec, v) =>
  if 60 ≤ sec then none
  else
  (getZone (skipFraction v)).bind fun (offset, v) =>
  if v.length ≠ 0 then none
  else if day < 1 ∨ day > daysIn month year then none
  else some ⟨year, month, day, hour, min, sec, offset⟩

/-- `time.Parse("2006-01-02T15:04:05Z07", value)`. -/
def timeParse (value : String) : Option Time := timeParseChars value.data

/-- The decimal digit of `n % 10`. -/
def digitChar (n : Nat) : Char := Char.ofNat (48 + n % 10)

/-- `Time.Format("2006")`: the year of the wall clock on four digits, padded
with zeros (`appendInt(b, year, 4)`); the years `time.Parse` returns for the
layout above are below 10000. -/
def Time.formatYear (t : Time) : String :=
  String.mk [digitChar (t.year / 1000), digitChar (t.year / 100), digitChar (t.year / 10),
    digitChar t.year]

/-- The constant `version`. -/
def version : String := "v1"

/-- `esapi.IndexRequest`, with the fields the indexer sets. -/
structure IndexRequest where
  Index : String
  DocumentID : String
  Body : Json
  Refresh : String
deriving Repr

/-- The path of the HTTP request `esapi.IndexRequest.Do` sends: the index, the
document type `_doc`, and the document id when there is one. -/
def IndexRequest.path (r : IndexRequest) : String :=
  "/" ++ r.Index ++ "/" ++ "_doc" ++ (if r.DocumentID ≠ "" then "/" ++ r.DocumentID else "")

/-- `type ElasticErrorCause struct`. -/
structure ElasticErrorCause where
  Type_ : String
  Reason : String
deriving DecidableEq, Repr

/-- `type ElasticError struct`. -/
structure ElasticError where
  RootCause : List ElasticErrorCause
  Status : Int
deriving DecidableEq, Repr

/-- `type IndexResult struct`. -/
structure IndexResult where
  Result : String
  Error : Option ElasticError
deriving DecidableEq, Repr

/-- One member of an object decoded into an `ElasticErrorCause`. -/
def ElasticErrorCause.setField (key : String) (v : Json) (c : ElasticErrorCause) :
    Option ElasticErrorCause :=
  if foldEq key "type" then (decodeString v c.Type_).map (fun x => { c with Type_ := x })
  else if foldEq key "reason" then (decodeString v c.Reason).map (fun x => { c with Reason := x })
  else some c

/-- Decoding the items of an array into a `[]ElasticErrorCause`. -/
def decodeCauseItems : List Json → List ElasticErrorCause → Option (List ElasticErrorCause)
  | [], _ => some []
  | j :: js, [] => do
    let c ← decodeStruct ElasticErrorCause.setField j ⟨"", ""⟩
    let rest ← decodeCauseItems js []
    pure (c :: rest)
  | j :: js, old :: olds => do
    let c ← decodeStruct ElasticErrorCause.setField j old
    let rest ← decodeCauseItems js olds
    pure (c :: rest)

/-- One member of an object decoded into an `ElasticError`. -/
def ElasticError.setField (key : String) (v : Json) (e : ElasticError) : Option ElasticError :=
  if foldEq key "root_cause" then
    match v with
    | .null => some { e with RootCause := [] }
    | .arr items => (decodeCauseItems items e.RootCause).map (fun x => { e with RootCause := x })
    | _ => none
  else if foldEq key "status" then (decodeInt v e.Status).map (fun x => { e with Status := x })
  else some e

/-- One member of an object decoded into an `IndexResult`; `error` is a
pointer, which `null` sets to `nil` and an object allocates when it is `nil`. -/
def IndexResult.setField (key : String) (v : Json) (r : IndexResult) : Option IndexResult :=
  if foldEq key "result" then (decodeString v r.Result).map (fun x => { r with Result := x })
  else if foldEq key "error" then
    match v with
    | .null => some { r with Error := none }
    | _ => (decodeStruct ElasticError.setField v (r.Error.getD ⟨[], 0⟩)).map
        (fun x => { r with Error := some x })
  else some r

/-- The error `ElasticIndexer.Index` returns. -/
inductive IndexError where
  | encode
  | other (e : ExtError)
  | elastic (e : ElasticError)
deriving DecidableEq, Repr

/-- How a call of `ElasticIndexer.Index` ends: it returns an error or `nil`, or
it dereferences the `nil` result of the document. -/
inductive IndexOutcome where
  | returned (err : Option IndexError)
  | nilDereference
deriving DecidableEq, Repr

/-- The Elasticsearch client: what `req.Do` returns for a request, the first
JSON value of the response body (`none` when the body holds none) or an error. -/
abbrev Client := IndexRequest → Except ExtError (Option Json)

/-- `type ElasticIndexer struct`; the client is passed to `Index`. -/
structure ElasticIndexer where
  IndexPrefix : String
deriving DecidableEq, Repr

/-- The name of the index of a document: prefix and version, and the year of
the timestamp when `time.Parse` accepts it. -/
def ElasticIndexer.indexName (e : ElasticIndexer) (timestamp : String) : String :=
  let index := e.IndexPrefix ++ "-" ++ version
  match timeParse timestamp with
  | some ts => index ++ ("-" ++ ts.formatYear)
  | none => index

/-- `ElasticIndexer.Index`: the requests issued, and how the call ends. -/
def ElasticIndexer.Index (std : GoStd) (client : Client) (e : ElasticIndexer)
    (results : LocatedSpeed) : List IndexRequest × IndexOutcome :=
  match LocatedSpeed.encode std results with
  | none => ([], .returned (some .encode))
  | some b =>
    match results.Result with
    | none => ([], .nilDereference)
    | some result =>
      let req : IndexRequest :=
        { Index := e.indexName result.Header.Timestamp, DocumentID := result.Result.ID,
          Body := b, Refresh := "true" }
      match client req with
      | .error err => ([req], .returned (some (.other err)))
      | .ok body =>
        match body with
        | none => ([req], .returned (some (.other .decode)))
        | some j =>
          match decodeStruct IndexResult.setField j ⟨"", none⟩ with
          | none => ([req], .returned (some (.other .decode)))
          | some result =>
            match result.Error with
            | some err => ([req], .returned (some (.elastic err)))
            | none => ([req], .returned none)

/-! ## Timestamps as the specification writes them -/

/-- The two decimal digits of a number below 100. -/
def twoDigits (n : Nat) : List Char := [digitChar (n / 10), digitChar n]

/-- The four decimal digits of a number below 10000. -/
def fourDigits (n : Nat) : List Char :=
  [digitChar (n / 1000), digitChar (n / 100), digitChar (n / 10), digitChar n]

/-- The text `YYYY-MM-DDThh:mm:ssZ` of a date and a time of day.  This follows
the words of the specification, not the code: it is the form of timestamp the
statements about the index name range over. -/
def utcTimestamp (year month day hour min sec : Nat) : String :=
  String.mk (fourDigits year ++ ('-' :: (twoDigits month ++ ('-' :: (twoDigits day ++
    ('T' :: (twoDigits hour ++ (':' :: (twoDigits min ++ (':' :: (twoDigits sec ++ ['Z'])))))))))))

/-- The document of `TestIndex`: a zero result with a timestamp and an id. -/
def testIndexDocument : LocatedSpeed :=
  ⟨some { TestResult.zero with
    Header := ⟨"", "2020-03-25T20:00:17Z"⟩, Result := ⟨"1234", ""⟩ }, none⟩

/-- The document of `TestIndex` with another timestamp. -/
def testIndexDocumentAt (timestamp : String) : LocatedSpeed :=
  ⟨some { TestResult.zero with Header := ⟨"", timestamp⟩, Result := ⟨"1234", ""⟩ }, none⟩

/-- A store that answers every request with `{"status":"ok"}`, as the
round tripper of elastic_test.go does. -/
def okClient : Client := fun _ => .ok (some (.obj [("status", .str "ok")]))

/-! ## Values that the codecs carry both ways

The conditions under which a value is written by the encoder and read back
unchanged; they are stated on the value, and decided by evaluation. -/

/-- An `int` of 64 bits. -/
def IntOk (i : Int) : Bool := decide (-9223372036854775808 ≤ i ∧ i < 9223372036854775808)

/-- A `uint32`. -/
def Uint32Ok (n : Nat) : Bool := decide (n < 4294967296)

/-- A float that the library writes and reads back (in Go, a finite float). -/
def FloatOk (std : GoStd) (f : Float64) : Bool :=
  match std.formatFloat f with
  | some lit => std.parseFloat lit == some f
  | none => false

/-- An address that is empty, or of 4 or 16 bytes with a text that the library
reads back (in Go, an address of 16 bytes). -/
def IPOk (std : GoStd) (ip : IP) : Bool :=
  ip.length = 0 ||
    ((ip.length = 4 || ip.length = 16) && ((std.ipString ip).length ≠ 0 &&
      std.parseIP (std.ipString ip) == some ip))

/-- A hardware address of 6, 8 or 20 bytes: the lengths `net.ParseMAC` returns. -/
def MacOk (a : HardwareAddr) : Bool := a.length = 6 || a.length = 8 || a.length = 20

/-- A `Server` within these conditions. -/
def Server.Ok (std : GoStd) (s : Server) : Bool := IntOk s.ID && IntOk s.Port && IPOk std s.IP

/-- A `ServerList` within these conditions. -/
def ServerList.Ok (std : GoStd) (l : ServerList) : Bool :=
  (l.Servers.getD []).all (Server.Ok std)

/-- A `Speed` within these conditions. -/
def Speed.Ok (s : Speed) : Bool := Uint32Ok s.Bandwidth && Uint32Ok s.Bytes && Uint32Ok s.Elapsed

/-- An `Interface` within these conditions. -/
def Interface.Ok (std : GoStd) (i : Interface) : Bool :=
  IPOk std i.InternalIP && MacOk i.MacAddr && IPOk std i.ExternalIP

/-- A `TestResult` within these conditions. -/
def TestResult.Ok (std : GoStd) (r : TestResult) : Bool :=
  FloatOk std r.Ping.Jitter && FloatOk std r.Ping.Latency && r.Download.Ok && r.Upload.Ok &&
    FloatOk std r.PacketLoss && r.Interface.Ok std && r.Server.Ok std

/-- What the statements on re-encoding assume of the library parameters, and
what holds of the Go library: the float `0` and every float read from a literal
are written and read back, and so is every address `net.ParseIP` returns. -/
def GoStd.Lawful (std : GoStd) : Prop :=
  FloatOk std Float64.zero = true ∧
  (∀ lit f, std.parseFloat lit = some f → FloatOk std f = true) ∧
  (∀ text ip, std.parseIP text = some ip → IPOk std ip = true)

/-- An `Interface` as decoding leaves it: as `Interface.Ok`, the hardware
address being possibly still empty. -/
def Interface.Decoded (std : GoStd) (i : Interface) : Bool :=
  IPOk std i.InternalIP && (i.MacAddr.length = 0 || MacOk i.MacAddr) && IPOk std i.ExternalIP

/-- A `TestResult` as decoding leaves it: as `TestResult.Ok`, the hardware
address being possibly still empty. -/
def TestResult.Decoded (std : GoStd) (r : TestResult) : Bool :=
  FloatOk std r.Ping.Jitter && FloatOk std r.Ping.Latency && r.Download.Ok && r.Upload.Ok &&
    FloatOk std r.PacketLoss && r.Interface.Decoded std && r.Server.Ok std

/-! ## Sample data for closed instances -/

/-- A sample of the library parameters, used where a statement is evaluated on
concrete data: a float is written as the integer literal of its bit pattern and
read back from it, and an IP address of 16 bytes is written like a hardware
address, in upper case. -/
def GoStd.sample : GoStd where
  formatFloat := fun f => some (.int f.bits)
  parseFloat := fun n =>
    match n with
    | .int i => if 0 ≤ i then some ⟨i.toNat⟩ else none
    | .other _ => none
  ipString := fun ip => toUpper (hwString ip)
  parseIP := fun s => if s.data.length = 47 then macGroups2 ':' 16 s.data else none
  float32to64 := fun f => ⟨f.bits⟩

/-- The servers of `server-list.json`, as `TestParseServer` expects them. -/
def testServers : List Server :=
  [⟨1695, "Adamo", "Barcelona", "Spain", "speedtest.bcn.adamo.es", 8080, []⟩,
   ⟨21516, "Grupo MasMovil", "Barcelona", "Spain", "speedtest-bcn.masmovil.com", 8080, []⟩,
   ⟨2254, "CSUC", "Barcelona", "Spain", "speedtest.catnix.cat", 8080, []⟩,
   ⟨20672, "apfutura", "Barcelona", "Spain", "msibitnap.apfutura.net", 8080, []⟩,
   ⟨5105, "Eurona Wireless Telecom S.A.", "Barcelona", "Spain", "speedtest.eurona.net", 8080, []⟩,
   ⟨15199, "Meswifi", "Barcelona", "Spain", "speedtest.meswifi.com", 8080, []⟩,
   ⟨14449, "Vodafone ES", "Castelldefels", "Spain", "speedtestbarcelona2.vodafone.es", 8080, []⟩,
   ⟨23765, "GhoFi", "Barcelona", "Spain", "bcn-speedtest.ghofi.net", 8080, []⟩,
   ⟨19146, "Iguana", "Igualada", "Spain", "speedtest.iguana.cat", 8080, []⟩,
   ⟨31702, "Cingles Comunicacions", "Caldes de Montbu√≠", "Spain",
     "speedtest.cinglescomunicacions.com", 8080, []⟩]

/-- The server named "Iguana" of `testServers`. -/
def iguana : Server := ⟨19146, "Iguana", "Igualada", "Spain", "speedtest.iguana.cat", 8080, []⟩

/-- The JSON the encoder writes for the zero `TestResult`, as the expected
body of elastic_test.go shows it under `result` (there with a timestamp and an
id). -/
def zeroResultJson : Json :=
  .obj [("type", .str ""), ("timestamp", .str ""),
    ("ping", .obj [("jitter", .num (.int 0)), ("latency", .num (.int 0))]),
    ("download", .obj [("bandwidth", .num (.int 0)), ("bytes", .num (.int 0)),
      ("elapsed", .num (.int 0))]),
    ("upload", .obj [("bandwidth", .num (.int 0)), ("bytes", .num (.int 0)),
      ("elapsed", .num (.int 0))]),
    ("packetLoss", .num (.int 0)), ("isp", .str ""),
    ("interface", .obj [("internalIp", .str ""), ("name", .str ""), ("macAddr", .str ""),
      ("isVpn", .bool false), ("externalIp", .str "")]),
    ("server", .obj [("id", .num (.int 0)), ("name", .str ""), ("location", .str ""),
      ("country", .str ""), ("host", .str ""), ("port", .num (.int 0))]),
    ("result", .obj [("id", .str ""), ("url", .str "")])]

/-- A server list document with a member the struct does not declare. -/
def serverListWithCount : Json :=
  .obj [("type", .str "serverList"), ("timestamp", .str "2020-03-25T19:50:11Z"),
    ("servers", .arr []), ("count", .num (.int 0))]

/-- A measurement result with a hardware address of 6 bytes and an external
address of 16 bytes. -/
def sampleResult : TestResult :=
  { Header := ⟨"result", "2020-03-25T20:00:17Z"⟩
    Ping := ⟨⟨3⟩, ⟨14⟩⟩
    Download := ⟨11000000, 140000000, 12000⟩
    Upload := ⟨1200000, 9000000, 7000⟩
    PacketLoss := ⟨0⟩
    ISP := "Orange"
    Interface := ⟨[], "en0", [0, 26, 43, 60, 77, 94], false,
      [0, 0, 0, 0, 0, 0, 0, 0, 0, 0, 255, 255, 10, 0, 0, 1]⟩
    Server := iguana
    Result := ⟨"1234", ""⟩ }

/-- The `testTester` of monitor_test.go, with the decoded fixtures as values:
it lists `testServers` and answers every test with `result`. -/
def testTester (result : Option TestResult) : Tester :=
  ⟨fun _ => (testServers, none), fun _ => (result, none)⟩

/-- A tester whose `ListServers` fails. -/
def failingTester : Tester :=
  ⟨fun _ => ([], some (.failure "exit status 1")), fun _ => (some TestResult.zero, none)⟩

/-- An indexer that accepts every document. -/
def okIndexer : Indexer := ⟨fun _ => none⟩

/-- A measurement program that lists one server and fails on every other call. -/
def listOnlyExec : Exec := fun _ args =>
  if args = ["-L", "-fjson"] then
    .ok (some (.obj [("type", .str "serverList"), ("servers", .arr [.obj [("id", .num (.int 19146)),
      ("name", .str "Iguana")]])]))
  else .error (.failure "exit status 1")

/-! ## Theorems: endpoint selection -/

theorem oneOf_iff (c : String) (l : List String) : oneOf c l = true ↔ c ∈ l := by
  induction l with
  | nil => simp [oneOf]
  | cons a rest ih =>
    by_cases h : c = a
    · simp [oneOf, h]
    · simp [oneOf, h, ih]

theorem pick_mem {α : Type} (l : List α) (n : Nat) (h : l.length > 0) :
    ∃ x, l.get? (n % l.length) = some x ∧ x ∈ l := by
  have hlt : n % l.length < l.length := Nat.mod_lt _ h
  exact ⟨l.get ⟨n % l.length, hlt⟩, List.get?_eq_get hlt, List.get_mem _ _ _⟩

/-- What `Run` does once the candidates are known: with a server drawn from a
non-empty candidate list it calls `Test` on it and returns what `Test` returns. -/
theorem Run_eq_of_candidates (s : Tester) (servers : List Server) (preferred : List String)
    (draw : Nat) (hlist : s.ListServers () = (servers, none)) (cands : List Server)
    (hc : (if preferred.length > 0 then
        (if (servers.filter (fun x => oneOf x.Name preferred)).length > 0 then
          servers.filter (fun x => oneOf x.Name preferred) else servers)
      else servers) = cands)
    (hpos : cands.length > 0) :
    ∃ sv, sv ∈ cands ∧ Run s preferred draw =
      ([.listServers, .test sv], (s.Test sv).1, (s.Test sv).2.map RunError.other) := by
  obtain ⟨sv, hget, hmem⟩ := pick_mem cands draw hpos
  refine ⟨sv, hmem, ?_⟩
  simp only [Run, hlist, hc, hpos, if_true, hget]

/-- With a non-empty list of servers `Run` calls `Test` on some server and
returns what `Test` returns. -/
theorem Run_calls_Test_of_nonempty (s : Tester) (servers : List Server)
    (preferred : List String) (draw : Nat) (hlist : s.ListServers () = (servers, none))
    (hne : servers ≠ []) :
    ∃ sv, Run s preferred draw =
      ([.listServers, .test sv], (s.Test sv).1, (s.Test sv).2.map RunError.other) := by
  have hpos : (if preferred.length > 0 then
        (if (servers.filter (fun x => oneOf x.Name preferred)).length > 0 then
          servers.filter (fun x => oneOf x.Name preferred) else servers)
      else servers).length > 0 := by
    have := List.length_pos.2 hne
    split_ifs <;> assumption
  obtain ⟨sv, _, hrun⟩ := Run_eq_of_candidates s servers preferred draw hlist _ rfl hpos
  exact ⟨sv, hrun⟩

/-- C1: when `ListServers` returns a list in which at least one endpoint bears a
name of the non-empty preference list, `Run` calls `Test`, for every random
draw, on an endpoint of that list whose name is in the preference list, and
returns what `Test` returns; when a single endpoint matches it is the one
tested on every draw; on the ten servers of the test fixture with the
preference "Iguana" the endpoint tested is always the one with id 19146. -/
theorem Run_selects_preferred (s : Tester) (servers : List Server) (preferred : List String)
    (hlist : s.ListServers () = (servers, none)) (hpref : preferred ≠ [])
    (hmatch : ∃ x ∈ servers, x.Name ∈ preferred) :
    (∀ draw, ∃ sv, sv ∈ servers ∧ sv.Name ∈ preferred ∧
      Run s preferred draw =
        ([.listServers, .test sv], (s.Test sv).1, (s.Test sv).2.map RunError.other)) ∧
    (∀ only, servers.filter (fun x => decide (x.Name ∈ preferred)) = [only] →
      ∀ draw, Run s preferred draw =
        ([.listServers, .test only], (s.Test only).1, (s.Test only).2.map RunError.other)) ∧
    (servers = testServers → preferred = ["Iguana"] →
      ∀ draw, ∃ sv, sv.ID = 19146 ∧ Run s preferred draw =
        ([.listServers, .test sv], (s.Test sv).1, (s.Test sv).2.map RunError.other)) := by
  have hfilter : servers.filter (fun x => oneOf x.Name preferred) =
      servers.filter (fun x => decide (x.Name ∈ preferred)) := by
    congr 1
    funext x
    by_cases h : x.Name ∈ preferred
    · simp [h, (oneOf_iff x.Name preferred).2 h]
    · have : oneOf x.Name preferred ≠ true := fun hh => h ((oneOf_iff _ _).1 hh)
      simp [h, this]
  have hplen : preferred.length > 0 := List.length_pos.2 hpref
  have hflen : (servers.filter (fun x => oneOf x.Name preferred)).length > 0 := by
    obtain ⟨x, hx, hn⟩ := hmatch
    exact List.length_pos_of_mem (List.mem_filter.2 ⟨hx, (oneOf_iff _ _).2 hn⟩)
  have hc : (if preferred.length > 0 then
        (if (servers.filter (fun x => oneOf x.Name preferred)).length > 0 then
          servers.filter (fun x => oneOf x.Name preferred) else servers)
      else servers) = servers.filter (fun x => oneOf x.Name preferred) := by
    simp only [hplen, hflen, if_true]
  have main : ∀ draw, ∃ sv, sv ∈ servers.filter (fun x => oneOf x.Name preferred) ∧
      Run s preferred draw =
        ([.listServers, .test sv], (s.Test sv).1, (s.Test sv).2.map RunError.other) :=
    fun draw => Run_eq_of_candidates s servers preferred draw hlist _ hc hflen
  refine ⟨?_, ?_, ?_⟩
  · intro draw
    obtain ⟨sv, hmem, hrun⟩ := main draw
    obtain ⟨h1, h2⟩ := List.mem_filter.1 hmem
    exact ⟨sv, h1, (oneOf_iff _ _).1 h2, hrun⟩
  · intro only honly draw
    obtain ⟨sv, hmem, hrun⟩ := main draw
    rw [hfilter, honly] at hmem
    have : sv = only := by simpa using hmem
    rw [← this]
    exact hrun
  · intro hs hp draw
    obtain ⟨sv, hmem, hrun⟩ := main draw
    refine ⟨sv, ?_, hrun⟩
    subst hs hp
    have hf : testServers.filter (fun x => oneOf x.Name ["Iguana"]) = [iguana] := by decide
    rw [hf] at hmem
    have : sv = iguana := by simpa using hmem
    rw [this]
    rfl

/-- C1, on the call of `TestRun`: the fixture servers with the preferences
"Not Exist" and "Iguana". -/
theorem Run_selects_preferred_witness :
    (∀ draw, ∃ sv, sv ∈ testServers ∧ sv.Name ∈ ["Not Exist", "Iguana"] ∧
      Run (testTester none) ["Not Exist", "Iguana"] draw =
        ([.listServers, .test sv], ((testTester none).Test sv).1,
          ((testTester none).Test sv).2.map RunError.other)) ∧
    (∀ only, testServers.filter (fun x => decide (x.Name ∈ ["Not Exist", "Iguana"])) = [only] →
      ∀ draw, Run (testTester none) ["Not Exist", "Iguana"] draw =
        ([.listServers, .test only], ((testTester none).Test only).1,
          ((testTester none).Test only).2.map RunError.other)) ∧
    (testServers = testServers → ["Not Exist", "Iguana"] = ["Iguana"] →
      ∀ draw, ∃ sv, sv.ID = 19146 ∧ Run (testTester none) ["Not Exist", "Iguana"] draw =
        ([.listServers, .test sv], ((testTester none).Test sv).1,
          ((testTester none).Test sv).2.map RunError.other)) :=
  Run_selects_preferred (testTester none) testServers ["Not Exist", "Iguana"] rfl (by decide)
    ⟨iguana, by decide, by decide⟩

/-- C2: when `ListServers` returns a non-empty list and no endpoint bears a
name of the preference list (the empty preference list included), `Run` calls
`Test`, for every random draw, on an endpoint of the full list and returns what
`Test` returns; the error it returns is never its own "did not find any
matching server". -/
theorem Run_falls_back_to_full_list (s : Tester) (servers : List Server)
    (preferred : List String) (draw : Nat)
    (hlist : s.ListServers () = (servers, none)) (hne : servers ≠ [])
    (hno : ∀ x ∈ servers, x.Name ∉ preferred) :
    (∃ sv, sv ∈ servers ∧ Run s preferred draw =
      ([.listServers, .test sv], (s.Test sv).1, (s.Test sv).2.map RunError.other)) ∧
    (Run s preferred draw).2.2 ≠ some RunError.didNotFindAnyMatchingServer := by
  have hflen : (servers.filter (fun x => oneOf x.Name preferred)) = [] := by
    apply List.filter_eq_nil_iff.2
    intro x hx hh
    exact hno x hx ((oneOf_iff _ _).1 hh)
  have hc : (if preferred.length > 0 then
        (if (servers.filter (fun x => oneOf x.Name preferred)).length > 0 then
          servers.filter (fun x => oneOf x.Name preferred) else servers)
      else servers) = servers := by
    simp [hflen]
  obtain ⟨sv, hmem, hrun⟩ :=
    Run_eq_of_candidates s servers preferred draw hlist servers hc (List.length_pos.2 hne)
  refine ⟨⟨sv, hmem, hrun⟩, ?_⟩
  rw [hrun]
  cases (s.Test sv).2 <;> simp

/-- C2, on the fixture servers with a preference that names none of them. -/
theorem Run_falls_back_to_full_list_witness :
    (∃ sv, sv ∈ testServers ∧ Run (testTester none) ["Not Exist"] 3 =
      ([.listServers, .test sv], ((testTester none).Test sv).1,
        ((testTester none).Test sv).2.map RunError.other)) ∧
    (Run (testTester none) ["Not Exist"] 3).2.2 ≠ some RunError.didNotFindAnyMatchingServer :=
  Run_falls_back_to_full_list (testTester none) testServers ["Not Exist"] 3 rfl (by decide)
    (by decide)

/-- C3: when `ListServers` succeeds with an empty list, `Run` returns no result
and the error "did not find any matching server", whatever the preference list,
and the only call it makes on the tester is `ListServers`. -/
theorem Run_empty_list_fails (s : Tester) (preferred : List String) (draw : Nat)
    (hlist : s.ListServers () = ([], none)) :
    Run s preferred draw = ([.listServers], none, some RunError.didNotFindAnyMatchingServer) := by
  simp [Run, hlist]

/-- C3, on a tester that lists no server, with a preference. -/
theorem Run_empty_list_fails_witness :
    Run ⟨fun _ => ([], none), fun _ => (some TestResult.zero, none)⟩ ["Iguana"] 5 =
      ([.listServers], none, some RunError.didNotFindAnyMatchingServer) :=
  Run_empty_list_fails ⟨fun _ => ([], none), fun _ => (some TestResult.zero, none)⟩ ["Iguana"] 5
    rfl

/-! ## Theorems: the location refresh -/

/-- C10: `updateLocation` replaces the held location by the locator's result
when the locator returns no error, and returns the monitor as it was when the
locator returns an error; the indexer, the locator, the tester and the
preference list are the same afterwards in both cases. -/
theorem updateLocation_replaces_or_keeps (m : Monitor) :
    (∀ l, m.Locate () = (l, none) → m.updateLocation.Location = l) ∧
    (∀ l err, m.Locate () = (l, some err) →
      m.updateLocation.Location = m.Location ∧ m.updateLocation = m) ∧
    (m.updateLocation.Indexer = m.Indexer ∧ m.updateLocation.Locate = m.Locate ∧
      m.updateLocation.SpeedTester = m.SpeedTester ∧
      m.updateLocation.Preferred = m.Preferred) := by
  refine ⟨?_, ?_, ?_⟩
  · intro l h
    simp [Monitor.updateLocation, h]
  · intro l err h
    simp [Monitor.updateLocation, h]
  · unfold Monitor.updateLocation
    rcases hloc : m.Locate () with ⟨l, _ | err⟩ <;> simp

/-- C10, on a monitor that holds a location and whose locator returns a
location together with an error, as `CurrentLocation` does when the response
does not decode: the held location stays. -/
theorem updateLocation_replaces_or_keeps_witness :
    (⟨okIndexer, fun _ => (some { Location.zero with Country := "ES" }, some .decode),
        failingTester, ["Iguana"], some Location.zero⟩ : Monitor).updateLocation.Location =
      some Location.zero :=
  ((updateLocation_replaces_or_keeps
    ⟨okIndexer, fun _ => (some { Location.zero with Country := "ES" }, some .decode),
      failingTester, ["Iguana"], some Location.zero⟩).2.1
    (some { Location.zero with Country := "ES" }) .decode rfl).1

/-! ## Theorems: the measurement cycle -/

/-- The trace of a cycle in which `Run` returns no error: after the calls of
`Run` come at most one log line holding the encoded document, the call of the
indexer on the document built from the returned result and the held location,
and at most one log line holding the indexer's error. -/
theorem runSpeedTest_of_run_ok (std : GoStd) (m : Monitor) (draw : Nat) (calls : List Event)
    (results : Option TestResult)
    (hrun : Run m.SpeedTester m.Preferred draw = (calls, results, none)) :
    ∃ logged tail, (logged = [] ∨ ∃ b, logged = [.log (.document b)]) ∧
      (tail = [] ∨ ∃ e, tail = [.log (.errorIndexingTestResult e)]) ∧
      m.runSpeedTest std draw =
        [.log .startingSpeedtest] ++ calls ++ logged ++ (.index ⟨results, m.Location⟩ :: tail) := by
  unfold Monitor.runSpeedTest
  rw [hrun]
  refine ⟨match LocatedSpeed.encode std ⟨results, m.Location⟩ with
      | some b => [.log (.document b)]
      | none => [],
    match m.Indexer.Index ⟨results, m.Location⟩ with
      | some err => [.log (.errorIndexingTestResult err)]
      | none => [], ?_, ?_, ?_⟩
  · cases LocatedSpeed.encode std ⟨results, m.Location⟩ <;> simp
  · cases m.Indexer.Index ⟨results, m.Location⟩ <;> simp
  · simp only [List.append_assoc, List.append_cancel_left_eq]
    split <;> rfl

/-- C4 (what the code does): when `ListServers` returns an error, `Run` returns
`nil, nil`, so `runSpeedTest` logs no failure, does not call `Test`, and hands
the indexer a document whose result is `nil`; `ElasticIndexer.Index` on such a
document dereferences the `nil` result before it issues any request. -/
theorem runSpeedTest_list_error_still_indexes (std : GoStd) (m : Monitor) (draw : Nat)
    (servers : List Server) (err : ExtError)
    (hlist : m.SpeedTester.ListServers () = (servers, some err)) :
    Run m.SpeedTester m.Preferred draw = ([.listServers], none, none) ∧
    (∃ logged tail, (logged = [] ∨ ∃ b, logged = [.log (.document b)]) ∧
      (tail = [] ∨ ∃ e, tail = [.log (.errorIndexingTestResult e)]) ∧
      m.runSpeedTest std draw =
        [.log .startingSpeedtest] ++ [.listServers] ++ logged ++
          (.index ⟨none, m.Location⟩ :: tail)) ∧
    (∀ client e loc body, LocatedSpeed.encode std ⟨none, loc⟩ = some body →
      ElasticIndexer.Index std client e ⟨none, loc⟩ = ([], .nilDereference)) := by
  have hrun : Run m.SpeedTester m.Preferred draw = ([.listServers], none, none) := by
    simp [Run, hlist]
  refine ⟨hrun, runSpeedTest_of_run_ok std m draw _ _ hrun, ?_⟩
  intro client e loc body henc
  unfold ElasticIndexer.Index
  simp only [henc]

/-- C4, on a monitor whose tester fails to list the servers. -/
theorem runSpeedTest_list_error_still_indexes_witness :
    Run failingTester [] 0 = ([.listServers], none, none) ∧
    (∃ logged tail, (logged = [] ∨ ∃ b, logged = [.log (.document b)]) ∧
      (tail = [] ∨ ∃ e, tail = [.log (.errorIndexingTestResult e)]) ∧
      (⟨okIndexer, fun _ => (none, none), failingTester, [], none⟩ : Monitor).runSpeedTest
        GoStd.sample 0 =
      [.log .startingSpeedtest] ++ [.listServers] ++ logged ++ (.index ⟨none, none⟩ :: tail)) ∧
    (∀ client e loc body, LocatedSpeed.encode GoStd.sample ⟨none, loc⟩ = some body →
      ElasticIndexer.Index GoStd.sample client e ⟨none, loc⟩ = ([], .nilDereference)) :=
  runSpeedTest_list_error_still_indexes GoStd.sample
    ⟨okIndexer, fun _ => (none, none), failingTester, [], none⟩ 0 []
    (.failure "exit status 1") rfl

/-- C5 (what the code does): when the measurement program fails, `SpeedTest.Test`
returns `nil, nil`; a cycle whose listing succeeded with at least one server then
calls `Test`, logs no failure and hands the indexer a document whose result is
`nil`.  When instead the output of the program does not decode, `SpeedTest.Test`
returns the error. -/
theorem runSpeedTest_program_failure_still_indexes (std : GoStd) (os : Exec)
    (s : Option SpeedTest) (idx : Indexer) (locate : Locator) (preferred : List String)
    (loc : Option Location) (draw : Nat) (servers : List Server)
    (hlist : SpeedTest.ListServers std os s = (servers, none)) (hne : servers ≠ [])
    (hfail : ∀ name args, args ≠ ["-L", "-fjson"] → ∃ err, os name args = .error err) :
    (∀ server, SpeedTest.Test std os s server = (none, none)) ∧
    (∃ sv logged tail, (logged = [] ∨ ∃ b, logged = [.log (.document b)]) ∧
      (tail = [] ∨ ∃ e, tail = [.log (.errorIndexingTestResult e)]) ∧
      (⟨idx, locate, SpeedTest.toTester std os s, preferred, loc⟩ : Monitor).runSpeedTest
        std draw =
      [.log .startingSpeedtest] ++ [.listServers, .test sv] ++ logged ++
        (.index ⟨none, loc⟩ :: tail)) ∧
    (∀ (os2 : Exec) server, (∀ name args, os2 name args = .ok none) →
      SpeedTest.Test std os2 s server = (none, some .decode)) := by
  have htest : ∀ server, SpeedTest.Test std os s server = (none, none) := by
    intro server
    obtain ⟨err, herr⟩ := hfail
      (if (s.getD ⟨""⟩).Executable = "" then "speedtest" else (s.getD ⟨""⟩).Executable)
      ["--accept-license", "--accept-gdpr", "-s" ++ toString server.ID, "-fjson"] (by simp)
    unfold SpeedTest.Test SpeedTest.run
    by_cases hexe : (s.getD ⟨""⟩).Executable = ""
    · simp only [hexe, if_true] at herr ⊢
      rw [herr]
    · simp only [hexe, if_false] at herr ⊢
      rw [herr]
  refine ⟨htest, ?_, ?_⟩
  · have hcases : ∃ sv, Run (SpeedTest.toTester std os s) preferred draw =
        ([.listServers, .test sv], none, none) := by
      obtain ⟨sv, hrun⟩ :=
        Run_calls_Test_of_nonempty (SpeedTest.toTester std os s) servers preferred draw hlist hne
      refine ⟨sv, ?_⟩
      rw [hrun]
      have : (SpeedTest.toTester std os s).Test sv = (none, none) := htest sv
      rw [this]
      rfl
    obtain ⟨sv, hrun⟩ := hcases
    obtain ⟨logged, tail, h1, h2, h⟩ := runSpeedTest_of_run_ok std
      ⟨idx, locate, SpeedTest.toTester std os s, preferred, loc⟩ draw _ _ hrun
    exact ⟨sv, logged, tail, h1, h2, h⟩
  · intro os2 server hos
    simp [SpeedTest.Test, SpeedTest.run, hos]

/-- C5, on a measurement program that lists one server and fails on the
measurement. -/
theorem runSpeedTest_program_failure_still_indexes_witness :
    (∀ server, SpeedTest.Test GoStd.sample listOnlyExec none server = (none, none)) ∧
    (∃ sv logged tail, (logged = [] ∨ ∃ b, logged = [.log (.document b)]) ∧
      (tail = [] ∨ ∃ e, tail = [.log (.errorIndexingTestResult e)]) ∧
      (⟨okIndexer, fun _ => (none, none), SpeedTest.toTester GoStd.sample listOnlyExec none,
        [], none⟩ : Monitor).runSpeedTest GoStd.sample 0 =
      [.log .startingSpeedtest] ++ [.listServers, .test sv] ++ logged ++
        (.index ⟨none, none⟩ :: tail)) ∧
    (∀ (os2 : Exec) server, (∀ name args, os2 name args = .ok none) →
      SpeedTest.Test GoStd.sample os2 none server = (none, some .decode)) :=
  runSpeedTest_program_failure_still_indexes GoStd.sample listOnlyExec none okIndexer
    (fun _ => (none, none)) [] none 0 [⟨19146, "Iguana", "", "", "", 0, []⟩] (by decide)
    (by decide) (fun _ args h => ⟨.failure "exit status 1", by simp [listOnlyExec, h]⟩)

/-- C6: in a cycle in which `Run` called `Test` and returned no error, the
document handed to the indexer holds the result `Test` returned and the location
the monitor holds.  A document without location is written with the single
member `result`; a document with a location is written with the members `result`
and `location`, the latter being the encoding of that location. -/
theorem runSpeedTest_document (std : GoStd) (m : Monitor) (draw : Nat) (sv : Server)
    (hrun : Run m.SpeedTester m.Preferred draw =
      ([.listServers, .test sv], (m.SpeedTester.Test sv).1, none)) :
    (∃ logged tail, (logged = [] ∨ ∃ b, logged = [.log (.document b)]) ∧
      (tail = [] ∨ ∃ e, tail = [.log (.errorIndexingTestResult e)]) ∧
      m.runSpeedTest std draw =
        [.log .startingSpeedtest] ++ [.listServers, .test sv] ++ logged ++
          (.index ⟨(m.SpeedTester.Test sv).1, m.Location⟩ :: tail)) ∧
    (∀ (doc : LocatedSpeed) (j : Json), LocatedSpeed.encode std doc = some j →
      doc.Location = none →
      j.keys = ["result"] ∧ "location" ∉ j.keys ∧ j.member "location" = none) ∧
    (∀ (doc : LocatedSpeed) (l : Location) (j : Json), LocatedSpeed.encode std doc = some j →
      doc.Location = some l →
      j.keys = ["result", "location"] ∧
        ∃ jl, Location.encode std l = some jl ∧ j.member "location" = some jl) := by
  refine ⟨runSpeedTest_of_run_ok std m draw _ _ hrun, ?_, ?_⟩
  · intro doc j henc hloc
    obtain ⟨res, loc⟩ := doc
    simp only at hloc
    subst hloc
    have hshape : ∃ r, j = .obj [("result", r)] := by
      cases res with
      | none =>
        simp [LocatedSpeed.encode] at henc
        exact ⟨_, henc.symm⟩
      | some r =>
        cases hr : TestResult.encode std r with
        | none => simp [LocatedSpeed.encode, hr] at henc
        | some jr =>
          simp [LocatedSpeed.encode, hr] at henc
          exact ⟨_, henc.symm⟩
    obtain ⟨r, rfl⟩ := hshape
    refine ⟨rfl, by simp [Json.keys], ?_⟩
    simp [Json.member, lookupLast]
  · intro doc l j henc hloc
    obtain ⟨res, loc⟩ := doc
    simp only at hloc
    subst hloc
    cases hl : Location.encode std l with
    | none =>
      cases res with
      | none => simp [LocatedSpeed.encode, hl] at henc
      | some r =>
        cases hr : TestResult.encode std r <;> simp [LocatedSpeed.encode, hl, hr] at henc
    | some jl =>
      have hshape : ∃ r, j = .obj [("result", r), ("location", jl)] := by
        cases res with
        | none =>
          simp [LocatedSpeed.encode, hl] at henc
          exact ⟨_, henc.symm⟩
        | some r =>
          cases hr : TestResult.encode std r with
          | none => simp [LocatedSpeed.encode, hr] at henc
          | some jr =>
            simp [LocatedSpeed.encode, hr, hl] at henc
            exact ⟨_, henc.symm⟩
      obtain ⟨r, rfl⟩ := hshape
      exact ⟨rfl, jl, rfl, by simp [Json.member, lookupLast]⟩

/-- C6, on the fixture tester with the preference "Iguana" and a held location. -/
theorem runSpeedTest_document_witness :
    ∃ logged tail, (logged = [] ∨ ∃ b, logged = [.log (.document b)]) ∧
      (tail = [] ∨ ∃ e, tail = [.log (.errorIndexingTestResult e)]) ∧
      (⟨okIndexer, fun _ => (none, none), testTester (some TestResult.zero), ["Iguana"],
        some Location.zero⟩ : Monitor).runSpeedTest GoStd.sample 0 =
        [.log .startingSpeedtest] ++ [.listServers, .test iguana] ++ logged ++
          (.index ⟨some TestResult.zero, some Location.zero⟩ :: tail) :=
  (runSpeedTest_document GoStd.sample
    ⟨okIndexer, fun _ => (none, none), testTester (some TestResult.zero), ["Iguana"],
      some Location.zero⟩ 0 iguana rfl).1

/-! ## Theorems: the index of a document -/

theorem digitChar_toNat (n : Nat) : (digitChar n).toNat = 48 + n % 10 := by
  unfold digitChar
  have h : n % 10 < 10 := Nat.mod_lt _ (by decide)
  generalize n % 10 = k at h
  interval_cases k <;> rfl

theorem isDigit_zero (n : Nat) (rest : List Char) : isDigit (digitChar n :: rest) 0 = true := by
  simp [isDigit, digitChar_toNat]
  omega

theorem isDigit_one (c : Char) (n : Nat) (rest : List Char) :
    isDigit (c :: digitChar n :: rest) 1 = true := by
  simp [isDigit, digitChar_toNat]
  omega

theorem getnum_twoDigits (n : Nat) (rest : List Char) (fixed : Bool) (h : n < 100) :
    getnum (twoDigits n ++ rest) fixed = some (n, rest) := by
  simp [getnum, twoDigits, isDigit_zero, isDigit_one, digitChar_toNat]
  omega

theorem getYear_fourDigits (n : Nat) (rest : List Char) (h : n < 10000) :
    getYear (fourDigits n ++ rest) = some (n, rest) := by
  simp [getYear, fourDigits, isDigit, digitChar_toNat]
  omega

/-- `time.Parse` accepts the text of a date and time of day and returns it. -/
theorem timeParse_utcTimestamp (year month day hour min sec : Nat) (hy : year < 10000)
    (hm1 : 1 ≤ month) (hm2 : month ≤ 12) (hd1 : 1 ≤ day) (hd2 : day ≤ daysIn month year)
    (hh : hour < 24) (hmin : min < 60) (hs : sec < 60) :
    timeParse (utcTimestamp year month day hour min sec) =
      some ⟨year, month, day, hour, min, sec, 0⟩ := by
  have hd3 : day < 100 := by
    have : daysIn month year ≤ 31 := by
      unfold daysIn
      split_ifs <;> omega
    omega
  have c1 : ¬ (month = 0 ∨ 12 < month) := by omega
  have c2 : ¬ (24 ≤ hour) := by omega
  have c3 : ¬ (60 ≤ min) := by omega
  have c4 : ¬ (60 ≤ sec) := by omega
  have c5 : ¬ (day < 1 ∨ day > daysIn month year) := by omega
  have hz : getZone (skipFraction ['Z']) = some (0, []) := by decide
  simp only [timeParse, utcTimestamp, timeParseChars, getYear_fourDigits _ _ hy, Option.some_bind,
    skipChar, if_true, getnum_twoDigits _ _ _ (show month < 100 by omega),
    getnum_twoDigits _ _ _ hd3, getnum_twoDigits _ _ _ (show hour < 100 by omega),
    getnum_twoDigits _ _ _ (show min < 100 by omega),
    getnum_twoDigits _ _ _ (show sec < 100 by omega), c1, c2, c3, c4, c5, if_false, hz,
    List.length_nil, ne_eq, not_true_eq_false]

/-- The index of a timestamp that is the text of a date and time of day. -/
theorem indexName_utcTimestamp (e : ElasticIndexer) (year month day hour min sec : Nat)
    (hy : year < 10000) (hm1 : 1 ≤ month) (hm2 : month ≤ 12) (hd1 : 1 ≤ day)
    (hd2 : day ≤ daysIn month year) (hh : hour < 24) (hmin : min < 60) (hs : sec < 60) :
    e.indexName (utcTimestamp year month day hour min sec) =
      e.IndexPrefix ++ "-v1-" ++ String.mk (fourDigits year) := by
  unfold ElasticIndexer.indexName
  rw [timeParse_utcTimestamp year month day hour min sec hy hm1 hm2 hd1 hd2 hh hmin hs]
  apply String.ext
  simp [Time.formatYear, fourDigits, version]

/-- The requests of `ElasticIndexer.Index` on a document with a result: none
when the document does not encode, and otherwise one, to the index named after
the timestamp, with the result identifier as document id. -/
theorem Index_requests (std : GoStd) (client : Client) (e : ElasticIndexer)
    (doc : LocatedSpeed) (result : TestResult) (hres : doc.Result = some result) :
    (ElasticIndexer.Index std client e doc).1 =
      match LocatedSpeed.encode std doc with
      | none => []
      | some body =>
        [⟨e.indexName result.Header.Timestamp, result.Result.ID, body, "true"⟩] := by
  unfold ElasticIndexer.Index
  cases henc : LocatedSpeed.encode std doc with
  | none => rfl
  | some body =>
    simp only [hres]
    cases client ⟨e.indexName result.Header.Timestamp, result.Result.ID, body, "true"⟩ with
    | error err => rfl
    | ok b =>
      cases b with
      | none => rfl
      | some j =>
        simp only
        cases decodeStruct IndexResult.setField j ⟨"", none⟩ with
        | none => rfl
        | some r =>
          simp only
          cases r.Error <;> rfl

/-- The index of a timestamp that `time.Parse` rejects. -/
theorem indexName_of_parse_error (e : ElasticIndexer) (timestamp : String)
    (h : timeParse timestamp = none) : e.indexName timestamp = e.IndexPrefix ++ "-v1" := by
  unfold ElasticIndexer.indexName
  rw [h]
  apply String.ext
  simp [version]

/-- C7: for every index prefix and every document whose timestamp is the text
`YYYY-MM-DDThh:mm:ssZ` of a date and time of day (month 1 to 12, day within the
month, hour below 24, minute and second below 60), every request
`ElasticIndexer.Index` issues goes to the index `<prefix>-v1-<YYYY>` with the
result identifier of the document as document id, and it issues exactly one such
request when the document encodes.  For a document whose timestamp `time.Parse`
rejects, every request goes to `<prefix>-v1`, with the same document id.  In
both cases the requests do not depend on what the store answers, so submitting
the same document again addresses the same index and id. -/
theorem Index_routes_by_year (std : GoStd) (client : Client) (e : ElasticIndexer)
    (doc : LocatedSpeed) (result : TestResult) (year month day hour min sec : Nat)
    (hres : doc.Result = some result)
    (hts : result.Header.Timestamp = utcTimestamp year month day hour min sec)
    (hy : year < 10000) (hm : 1 ≤ month ∧ month ≤ 12) (hd : 1 ≤ day ∧ day ≤ daysIn month year)
    (hh : hour < 24) (hmin : min < 60) (hs : sec < 60) :
    (∀ req ∈ (ElasticIndexer.Index std client e doc).1,
      req.Index = e.IndexPrefix ++ "-v1-" ++ String.mk (fourDigits year) ∧
      req.DocumentID = result.Result.ID ∧
      req.path = "/" ++ (e.IndexPrefix ++ "-v1-" ++ String.mk (fourDigits year)) ++ "/" ++ "_doc" ++
        (if result.Result.ID ≠ "" then "/" ++ result.Result.ID else "")) ∧
    (∀ body, LocatedSpeed.encode std doc = some body →
      (ElasticIndexer.Index std client e doc).1 =
        [⟨e.IndexPrefix ++ "-v1-" ++ String.mk (fourDigits year), result.Result.ID, body,
          "true"⟩]) ∧
    (∀ client2 : Client,
      (ElasticIndexer.Index std client2 e doc).1 = (ElasticIndexer.Index std client e doc).1) ∧
    (∀ (doc2 : LocatedSpeed) (result2 : TestResult), doc2.Result = some result2 →
      timeParse result2.Header.Timestamp = none →
      (∀ req ∈ (ElasticIndexer.Index std client e doc2).1,
        req.Index = e.IndexPrefix ++ "-v1" ∧ req.DocumentID = result2.Result.ID) ∧
      (∀ body, LocatedSpeed.encode std doc2 = some body →
        (ElasticIndexer.Index std client e doc2).1 =
          [⟨e.IndexPrefix ++ "-v1", result2.Result.ID, body, "true"⟩]) ∧
      (∀ client2 : Client,
        (ElasticIndexer.Index std client2 e doc2).1 =
          (ElasticIndexer.Index std client e doc2).1)) := by
  have hname : e.indexName result.Header.Timestamp =
      e.IndexPrefix ++ "-v1-" ++ String.mk (fourDigits year) := by
    rw [hts]
    exact indexName_utcTimestamp e year month day hour min sec hy hm.1 hm.2 hd.1 hd.2 hh hmin hs
  refine ⟨?_, ?_, ?_, ?_⟩
  · intro req hmem
    rw [Index_requests std client e doc result hres, hname] at hmem
    cases henc : LocatedSpeed.encode std doc with
    | none =>
      rw [henc] at hmem
      cases hmem
    | some body =>
      rw [henc] at hmem
      have : req = ⟨e.IndexPrefix ++ "-v1-" ++ String.mk (fourDigits year), result.Result.ID,
          body, "true"⟩ := by simpa using hmem
      subst this
      exact ⟨rfl, rfl, rfl⟩
  · intro body henc
    rw [Index_requests std client e doc result hres, hname, henc]
  · intro client2
    rw [Index_requests std client2 e doc result hres, Index_requests std client e doc result hres]
  · intro doc2 result2 hres2 hparse
    have hname2 := indexName_of_parse_error e result2.Header.Timestamp hparse
    refine ⟨?_, ?_, ?_⟩
    · intro req hmem
      rw [Index_requests std client e doc2 result2 hres2, hname2] at hmem
      cases henc : LocatedSpeed.encode std doc2 with
      | none =>
        rw [henc] at hmem
        cases hmem
      | some body =>
        rw [henc] at hmem
        have : req = ⟨e.IndexPrefix ++ "-v1", result2.Result.ID, body, "true"⟩ := by
          simpa using hmem
        subst this
        exact ⟨rfl, rfl⟩
    · intro body henc
      rw [Index_requests std client e doc2 result2 hres2, hname2, henc]
    · intro client2
      rw [Index_requests std client2 e doc2 result2 hres2,
        Index_requests std client e doc2 result2 hres2]

/-- C7, on the call of `TestIndex`: prefix "speed-test", timestamp
2020-03-25T20:00:17Z and id "1234" give one request, of path
`/speed-test-v1-2020/_doc/1234`. -/
theorem Index_routes_by_year_witness :
    ∃ req, (ElasticIndexer.Index GoStd.sample okClient ⟨"speed-test"⟩ testIndexDocument).1 =
        [req] ∧
      req.Index = "speed-test-v1-2020" ∧ req.DocumentID = "1234" ∧
      req.path = "/speed-test-v1-2020/_doc/1234" :=
  ⟨_, (Index_routes_by_year GoStd.sample okClient ⟨"speed-test"⟩ testIndexDocument _
    2020 3 25 20 0 17 rfl rfl (by decide) (by decide) (by decide) (by decide) (by decide)
    (by decide)).2.1 _ rfl, rfl, rfl, rfl⟩

/-- C7, where the year is missing: the timestamps 2016-12-31T23:59:60Z (a leap
second), 2020-02-30T10:00:00Z and 2020-03-25T24:00:00Z have the form
`YYYY-MM-DDThh:mm:ssZ`, `time.Parse` rejects them, and the request of
`ElasticIndexer.Index` goes to `speed-test-v1`, of path `/speed-test-v1/_doc/1234`,
not to `speed-test-v1-2016` or `speed-test-v1-2020`. -/
theorem Index_routes_by_year_counterexample :
    (utcTimestamp 2016 12 31 23 59 60 = "2016-12-31T23:59:60Z" ∧
      timeParse "2016-12-31T23:59:60Z" = none ∧
      ∃ req, (ElasticIndexer.Index GoStd.sample okClient ⟨"speed-test"⟩
          (testIndexDocumentAt "2016-12-31T23:59:60Z")).1 = [req] ∧
        req.Index = "speed-test-v1" ∧ req.Index ≠ "speed-test-v1-2016" ∧
        req.DocumentID = "1234" ∧ req.path = "/speed-test-v1/_doc/1234") ∧
    (utcTimestamp 2020 2 30 10 0 0 = "2020-02-30T10:00:00Z" ∧
      timeParse "2020-02-30T10:00:00Z" = none ∧
      ∃ req, (ElasticIndexer.Index GoStd.sample okClient ⟨"speed-test"⟩
          (testIndexDocumentAt "2020-02-30T10:00:00Z")).1 = [req] ∧
        req.Index = "speed-test-v1" ∧ req.Index ≠ "speed-test-v1-2020" ∧
        req.DocumentID = "1234" ∧ req.path = "/speed-test-v1/_doc/1234") ∧
    (utcTimestamp 2020 3 25 24 0 0 = "2020-03-25T24:00:00Z" ∧
      timeParse "2020-03-25T24:00:00Z" = none ∧
      ∃ req, (ElasticIndexer.Index GoStd.sample okClient ⟨"speed-test"⟩
          (testIndexDocumentAt "2020-03-25T24:00:00Z")).1 = [req] ∧
        req.Index = "speed-test-v1" ∧ req.Index ≠ "speed-test-v1-2020" ∧
        req.DocumentID = "1234" ∧ req.path = "/speed-test-v1/_doc/1234") := by
  refine ⟨⟨by decide, by decide, _, rfl, rfl, by decide, rfl, rfl⟩,
    ⟨by decide, by decide, _, rfl, rfl, by decide, rfl, rfl⟩,
    ⟨by decide, by decide, _, rfl, rfl, by decide, rfl, rfl⟩⟩

/-! ## Theorems: locations -/

/-- C8 (what the code does): on an object that holds the coordinates under the
aliases `lat` and `lon`, `GeoPoint.UnmarshalJSON` reads the latitude, and reads
the longitude from `lat` as well; `lon` is never read.  Under `latitude` and
`longitude` both coordinates are read, and `Location.UnmarshalJSON` fills its
`GeoPoint` from the members of the same object. -/
theorem GeoPoint_longitude_read_from_lat (std : GoStd) (latLit lonLit : NumLit)
    (lat lon : Float64) (g : GeoPoint)
    (hlat : std.parseFloat latLit = some lat) (hlon : std.parseFloat lonLit = some lon) :
    GeoPoint.UnmarshalJSON std (.obj [("lat", .num latLit), ("lon", .num lonLit)]) g =
      some ⟨lat, lat⟩ ∧
    GeoPoint.UnmarshalJSON std (.obj [("lon", .num lonLit)]) g =
      some ⟨Float64.zero, Float64.zero⟩ ∧
    GeoPoint.UnmarshalJSON std (.obj [("latitude", .num latLit), ("longitude", .num lonLit)]) g =
      some ⟨lat, lon⟩ ∧
    Location.UnmarshalJSON std (.obj [("latitude", .num latLit), ("longitude", .num lonLit)])
      Location.zero = some { Location.zero with GeoPoint := ⟨lat, lon⟩ } ∧
    Location.UnmarshalJSON std (.obj [("lat", .num latLit), ("lon", .num lonLit)])
      Location.zero = some { Location.zero with GeoPoint := ⟨lat, lat⟩ } := by
  have k1 : ("lat" = "latitude") = False := by decide
  have k2 : ("lon" = "latitude") = False := by decide
  have k3 : ("lat" = "longitude") = False := by decide
  have k4 : ("lon" = "longitude") = False := by decide
  have k5 : ("lon" = "lat") = False := by decide
  have k6 : ("latitude" = "lat") = False := by decide
  have k7 : ("longitude" = "lat") = False := by decide
  have k8 : ("longitude" = "latitude") = False := by decide
  have k9 : ("latitude" = "longitude") = False := by decide
  have g1 : ∀ g0, GeoPoint.UnmarshalJSON std (.obj [("lat", .num latLit), ("lon", .num lonLit)])
      g0 = some ⟨lat, lat⟩ := by
    intro g0
    simp [GeoPoint.UnmarshalJSON, unmarshalMap, Json.toAnyMembers, Json.toAny, hlat, hlon,
      mapIndex, lookupLast, firstFloat64, k1, k2, k3, k4, k5]
  have g2 : ∀ g0, GeoPoint.UnmarshalJSON std
      (.obj [("latitude", .num latLit), ("longitude", .num lonLit)]) g0 = some ⟨lat, lon⟩ := by
    intro g0
    simp [GeoPoint.UnmarshalJSON, unmarshalMap, Json.toAnyMembers, Json.toAny, hlat, hlon,
      mapIndex, lookupLast, firstFloat64, k6, k7, k8, k9]
  refine ⟨g1 g, ?_, g2 g, ?_, ?_⟩
  · simp [GeoPoint.UnmarshalJSON, unmarshalMap, Json.toAnyMembers, Json.toAny, hlon,
      mapIndex, lookupLast, firstFloat64, k2, k4, k5]
  · have hdec : decodeStruct (Location.setField std)
        (.obj [("latitude", .num latLit), ("longitude", .num lonLit)]) Location.zero =
        some Location.zero := by
      have s1 : ∀ v l, Location.setField std "latitude" v l = some l := fun _ _ => rfl
      have s2 : ∀ v l, Location.setField std "longitude" v l = some l := fun _ _ => rfl
      simp [decodeStruct, decodeMembers, s1, s2]
    simp only [Location.UnmarshalJSON, hdec, g2, Option.map_some']
  · have hdec : decodeStruct (Location.setField std)
        (.obj [("lat", .num latLit), ("lon", .num lonLit)]) Location.zero =
        some Location.zero := by
      have s1 : ∀ v l, Location.setField std "lat" v l = some l := fun _ _ => rfl
      have s2 : ∀ v l, Location.setField std "lon" v l = some l := fun _ _ => rfl
      simp [decodeStruct, decodeMembers, s1, s2]
    simp only [Location.UnmarshalJSON, hdec, g1, Option.map_some']

/-- C8, on the object `{"lat": 41, "lon": 2}`: the longitude read is 41. -/
theorem GeoPoint_longitude_read_from_lat_witness :
    GeoPoint.UnmarshalJSON GoStd.sample (.obj [("lat", .num (.int 41)), ("lon", .num (.int 2))])
      ⟨Float64.zero, Float64.zero⟩ = some ⟨⟨41⟩, ⟨41⟩⟩ :=
  (GeoPoint_longitude_read_from_lat GoStd.sample (.int 41) (.int 2) ⟨41⟩ ⟨2⟩
    ⟨Float64.zero, Float64.zero⟩ rfl rfl).1

/-! ## Theorems: the JSON codecs -/

theorem hexVal_upper_hexDigit (d : Nat) (h : d < 16) :
    hexVal (upperChar (hexDigit d)) = some d := by
  interval_cases d <;> decide

theorem xtoi_upper_hex (b : Byte) :
    xtoi [upperChar (hexDigit (b.val / 16)), upperChar (hexDigit (b.val % 16))] =
      (b.val, 2, true) := by
  have h1 : b.val / 16 < 16 := by omega
  have h2 : b.val % 16 < 16 := by omega
  have h3 : ¬ (b.val / 16 ≥ 0xFFFFFF) := by omega
  have h4 : ¬ (b.val / 16 * 16 + b.val % 16 ≥ 0xFFFFFF) := by omega
  simp only [xtoi, xtoiLoop, hexVal_upper_hexDigit _ h1, hexVal_upper_hexDigit _ h2, Nat.zero_mul,
    Nat.zero_add, h3, h4, if_false]
  simp
  omega

theorem xtoi2_upper_hex (b : Byte) (rest : List Char)
    (hrest : rest = [] ∨ ∃ t, rest = ':' :: t) :
    xtoi2 (upperChar (hexDigit (b.val / 16)) :: upperChar (hexDigit (b.val % 16)) :: rest) ':' =
      some b := by
  have hcond : ¬ ((upperChar (hexDigit (b.val / 16)) :: upperChar (hexDigit (b.val % 16)) ::
      rest).length > 2 ∧ (upperChar (hexDigit (b.val / 16)) ::
      upperChar (hexDigit (b.val % 16)) :: rest).get? 2 ≠ some ':') := by
    rcases hrest with h | ⟨t, h⟩ <;> subst h <;> simp
  unfold xtoi2
  rw [if_neg hcond]
  have : (upperChar (hexDigit (b.val / 16)) :: upperChar (hexDigit (b.val % 16)) :: rest).take 2 =
      [upperChar (hexDigit (b.val / 16)), upperChar (hexDigit (b.val % 16))] := by simp
  rw [this, xtoi_upper_hex]
  simp only [and_self, if_true, Option.some.injEq]
  apply Fin.ext
  simp [Fin.ofNat]

theorem upperChar_colon : upperChar ':' = ':' := by decide

theorem macGroups2_upper (b : Byte) (rest : List Byte) :
    macGroups2 ':' (rest.length + 1)
      (upperChar (hexDigit (b.val / 16)) :: upperChar (hexDigit (b.val % 16)) ::
        (hwTail rest).map upperChar) = some (b :: rest) := by
  induction rest generalizing b with
  | nil =>
    simp [macGroups2, hwTail, xtoi2_upper_hex b [] (Or.inl rfl)]
  | cons c r ih =>
    have hx := xtoi2_upper_hex b ((hwTail (c :: r)).map upperChar)
      (Or.inr ⟨upperChar (hexDigit (c.val / 16)) :: upperChar (hexDigit (c.val % 16)) ::
        (hwTail r).map upperChar, by simp [hwTail, upperChar_colon]⟩)
    have hih := ih c
    simp only [List.length_cons] at hih ⊢
    rw [macGroups2, hx]
    simp only [hwTail, List.map_cons, List.drop_succ_cons, List.drop_zero, upperChar_colon, hih]
    rfl

theorem hwTail_length (rest : List Byte) : (hwTail rest).length = 3 * rest.length := by
  induction rest with
  | nil => rfl
  | cons c r ih =>
    simp only [hwTail, List.length_cons, ih]
    omega

theorem ParseMAC_toUpper_hwString (a : HardwareAddr) (h : MacOk a = true) :
    ParseMAC (toUpper (hwString a)) = some a := by
  cases a with
  | nil => simp [MacOk] at h
  | cons b rest =>
    have hl : rest.length + 1 = 6 ∨ rest.length + 1 = 8 ∨ rest.length + 1 = 20 := by
      simp only [MacOk, List.length_cons, Bool.or_eq_true, decide_eq_true_eq] at h
      omega
    have hdata : (toUpper (hwString (b :: rest))).data =
        upperChar (hexDigit (b.val / 16)) :: upperChar (hexDigit (b.val % 16)) ::
          (hwTail rest).map upperChar := by
      simp [toUpper, hwString]
    have hcl : (toUpper (hwString (b :: rest))).data.length = 3 * rest.length + 2 := by
      rw [hdata]
      simp [hwTail_length]
    have hget : (toUpper (hwString (b :: rest))).data.get? 2 = some ':' := by
      rw [hdata]
      cases rest with
      | nil => simp at hl
      | cons c r => simp [hwTail, upperChar_colon]
    unfold ParseMAC
    simp only [hcl, hget]
    have e1 : ¬ (3 * rest.length + 2 < 14) := by omega
    have e2 : ¬ ((3 * rest.length + 2 + 1) % 3 ≠ 0) := by omega
    have e3 : (3 * rest.length + 2 + 1) / 3 = rest.length + 1 := by omega
    have e4 : ¬ (rest.length + 1 ≠ 6 ∧ rest.length + 1 ≠ 8 ∧ rest.length + 1 ≠ 20) := by omega
    simp only [e1, e2, e3, e4, if_false, true_or, if_true, Option.getD_some]
    rw [hdata]
    exact macGroups2_upper b rest


theorem Server_setField_id (std : GoStd) (v : Json) (s : Server) :
    Server.setField std "id" v s = (decodeInt v s.ID).map (fun x => { s with ID := x }) :=
  Eq.trans rfl rfl

theorem Server_setField_name (std : GoStd) (v : Json) (s : Server) :
    Server.setField std "name" v s = (decodeString v s.Name).map (fun x => { s with Name := x }) :=
  Eq.trans rfl rfl

theorem Server_setField_location (std : GoStd) (v : Json) (s : Server) :
    Server.setField std "location" v s = (decodeString v s.Location).map (fun x => { s with Location := x }) :=
  Eq.trans rfl rfl

theorem Server_setField_country (std : GoStd) (v : Json) (s : Server) :
    Server.setField std "country" v s = (decodeString v s.Country).map (fun x => { s with Country := x }) :=
  Eq.trans rfl rfl

theorem Server_setField_host (std : GoStd) (v : Json) (s : Server) :
    Server.setField std "host" v s = (decodeString v s.Host).map (fun x => { s with Host := x }) :=
  Eq.trans rfl rfl

theorem Server_setField_port (std : GoStd) (v : Json) (s : Server) :
    Server.setField std "port" v s = (decodeInt v s.Port).map (fun x => { s with Port := x }) :=
  Eq.trans rfl rfl

theorem Server_setField_ip (std : GoStd) (v : Json) (s : Server) :
    Server.setField std "ip" v s = (decodeIP std v).map (fun x => { s with IP := x }) :=
  Eq.trans rfl rfl

theorem Ping_setField_jitter (std : GoStd) (v : Json) (s : Ping) :
    Ping.setField std "jitter" v s = (decodeFloat std v s.Jitter).map (fun x => { s with Jitter := x }) :=
  Eq.trans rfl rfl

theorem Ping_setField_latency (std : GoStd) (v : Json) (s : Ping) :
    Ping.setField std "latency" v s = (decodeFloat std v s.Latency).map (fun x => { s with Latency := x }) :=
  Eq.trans rfl rfl

theorem Speed_setField_bandwidth (v : Json) (s : Speed) :
    Speed.setField "bandwidth" v s = (decodeUint32 v s.Bandwidth).map (fun x => { s with Bandwidth := x }) :=
  Eq.trans rfl rfl

theorem Speed_setField_bytes (v : Json) (s : Speed) :
    Speed.setField "bytes" v s = (decodeUint32 v s.Bytes).map (fun x => { s with Bytes := x }) :=
  Eq.trans rfl rfl

theorem Speed_setField_elapsed (v : Json) (s : Speed) :
    Speed.setField "elapsed" v s = (decodeUint32 v s.Elapsed).map (fun x => { s with Elapsed := x }) :=
  Eq.trans rfl rfl

theorem Interface_setField_internalIp (std : GoStd) (v : Json) (s : Interface) :
    Interface.setField std "internalIp" v s = (decodeIP std v).map (fun x => { s with InternalIP := x }) :=
  Eq.trans rfl rfl

theorem Interface_setField_name (std : GoStd) (v : Json) (s : Interface) :
    Interface.setField std "name" v s = (decodeString v s.Name).map (fun x => { s with Name := x }) :=
  Eq.trans rfl rfl

theorem Interface_setField_macAddr (std : GoStd) (v : Json) (s : Interface) :
    Interface.setField std "macAddr" v s = (HardwareAddr.UnmarshalJSON v).map (fun x => { s with MacAddr := x }) :=
  Eq.trans rfl rfl

theorem Interface_setField_isVpn (std : GoStd) (v : Json) (s : Interface) :
    Interface.setField std "isVpn" v s = (decodeBool v s.IsVPN).map (fun x => { s with IsVPN := x }) :=
  Eq.trans rfl rfl

theorem Interface_setField_externalIp (std : GoStd) (v : Json) (s : Interface) :
    Interface.setField std "externalIp" v s = (decodeIP std v).map (fun x => { s with ExternalIP := x }) :=
  Eq.trans rfl rfl

theorem Result_setField_id (v : Json) (s : Result) :
    Result.setField "id" v s = (decodeString v s.ID).map (fun x => { s with ID := x }) :=
  Eq.trans rfl rfl

theorem Result_setField_url (v : Json) (s : Result) :
    Result.setField "url" v s = (decodeString v s.URL).map (fun x => { s with URL := x }) :=
  Eq.trans rfl rfl

theorem ServerList_setField_type (std : GoStd) (v : Json) (s : ServerList) :
    ServerList.setField std "type" v s =
      (decodeString v s.Header.Type_).map (fun x => { s with Header := { s.Header with Type_ := x } }) :=
  Eq.trans rfl rfl

theorem ServerList_setField_timestamp (std : GoStd) (v : Json) (s : ServerList) :
    ServerList.setField std "timestamp" v s =
      (decodeString v s.Header.Timestamp).map
        (fun x => { s with Header := { s.Header with Timestamp := x } }) :=
  Eq.trans rfl rfl

theorem TestResult_setField_type (std : GoStd) (v : Json) (s : TestResult) :
    TestResult.setField std "type" v s =
      (decodeString v s.Header.Type_).map (fun x => { s with Header := { s.Header with Type_ := x } }) :=
  Eq.trans rfl rfl

theorem TestResult_setField_timestamp (std : GoStd) (v : Json) (s : TestResult) :
    TestResult.setField std "timestamp" v s =
      (decodeString v s.Header.Timestamp).map
        (fun x => { s with Header := { s.Header with Timestamp := x } }) :=
  Eq.trans rfl rfl

theorem ServerList_setField_servers (std : GoStd) (v : Json) (s : ServerList) :
    ServerList.setField std "servers" v s =
      (decodeServers std v s.Servers).map (fun x => { s with Servers := x }) :=
  Eq.trans rfl rfl

theorem TestResult_setField_ping (std : GoStd) (v : Json) (s : TestResult) :
    TestResult.setField std "ping" v s = (Ping.decode std v s.Ping).map (fun x => { s with Ping := x }) :=
  Eq.trans rfl rfl

theorem TestResult_setField_download (std : GoStd) (v : Json) (s : TestResult) :
    TestResult.setField std "download" v s = (Speed.decode v s.Download).map (fun x => { s with Download := x }) :=
  Eq.trans rfl rfl

theorem TestResult_setField_upload (std : GoStd) (v : Json) (s : TestResult) :
    TestResult.setField std "upload" v s = (Speed.decode v s.Upload).map (fun x => { s with Upload := x }) :=
  Eq.trans rfl rfl

theorem TestResult_setField_packetLoss (std : GoStd) (v : Json) (s : TestResult) :
    TestResult.setField std "packetLoss" v s = (decodeFloat std v s.PacketLoss).map (fun x => { s with PacketLoss := x }) :=
  Eq.trans rfl rfl

theorem TestResult_setField_isp (std : GoStd) (v : Json) (s : TestResult) :
    TestResult.setField std "isp" v s = (decodeString v s.ISP).map (fun x => { s with ISP := x }) :=
  Eq.trans rfl rfl

theorem TestResult_setField_interface (std : GoStd) (v : Json) (s : TestResult) :
    TestResult.setField std "interface" v s = (Interface.decode std v s.Interface).map (fun x => { s with Interface := x }) :=
  Eq.trans rfl rfl

theorem TestResult_setField_server (std : GoStd) (v : Json) (s : TestResult) :
    TestResult.setField std "server" v s = (Server.decode std v s.Server).map (fun x => { s with Server := x }) :=
  Eq.trans rfl rfl

theorem TestResult_setField_result (std : GoStd) (v : Json) (s : TestResult) :
    TestResult.setField std "result" v s = (Result.decode v s.Result).map (fun x => { s with Result := x }) :=
  Eq.trans rfl rfl

theorem decodeMembers_nil {α : Type} (step : String → Json → α → Option α) (a : α) :
    decodeMembers step [] a = some a := Eq.trans rfl rfl

theorem decodeMembers_cons {α : Type} (step : String → Json → α → Option α) (k : String)
    (v : Json) (rest : List (String × Json)) (a : α) :
    decodeMembers step ((k, v) :: rest) a = (step k v a).bind (decodeMembers step rest) := by
  cases h : step k v a with
  | none => rw [decodeMembers, h]; rfl
  | some b => rw [decodeMembers, h]; rfl

theorem decodeStruct_obj {α : Type} (step : String → Json → α → Option α)
    (ms : List (String × Json)) (a : α) :
    decodeStruct step (.obj ms) a = decodeMembers step ms a := Eq.trans rfl rfl

theorem decodeString_str (s old : String) : decodeString (.str s) old = some s :=
  Eq.trans rfl rfl

theorem decodeBool_bool (b old : Bool) : decodeBool (.bool b) old = some b :=
  Eq.trans rfl rfl

theorem FloatOk_elim (std : GoStd) (f : Float64) (h : FloatOk std f = true) :
    ∃ lit, std.formatFloat f = some lit ∧ std.parseFloat lit = some f := by
  unfold FloatOk at h
  cases hf : std.formatFloat f with
  | none => simp [hf] at h
  | some lit => exact ⟨lit, rfl, by simpa [hf] using h⟩

theorem float_roundtrip (std : GoStd) (f : Float64) (h : FloatOk std f = true) :
    ∃ j, encodeFloat std f = some j ∧ ∀ old, decodeFloat std j old = some f := by
  obtain ⟨lit, h1, h2⟩ := FloatOk_elim std f h
  exact ⟨.num lit, by simp [encodeFloat, h1], fun _ => by simp [decodeFloat, h2]⟩

theorem ip_roundtrip (std : GoStd) (ip : IP) (h : IPOk std ip = true) :
    ∃ t, ipMarshalText std ip = some t ∧ decodeIP std (.str t) = some ip ∧
      (ip.length = 0 → ip = []) := by
  by_cases h0 : ip.length = 0
  · have : ip = [] := List.length_eq_zero.1 h0
    subst this
    exact ⟨"", by simp [ipMarshalText], by simp [decodeIP, ipUnmarshalText], fun _ => rfl⟩
  · simp only [IPOk, h0, decide_False, Bool.false_or, Bool.and_eq_true, Bool.or_eq_true,
      decide_eq_true_eq, beq_iff_eq, ne_eq, decide_not, Bool.not_eq_true',
      decide_eq_false_iff_not] at h
    obtain ⟨hlen, hne, hparse⟩ := h
    refine ⟨std.ipString ip, ?_, ?_, fun h => absurd h h0⟩
    · have : ¬ (ip.length ≠ 4 ∧ ip.length ≠ 16) := by omega
      simp [ipMarshalText, h0, this]
    · simp [decodeIP, ipUnmarshalText, hne, hparse]

theorem decodeInt_int (i : Int) (old : Int) (h : IntOk i = true) :
    decodeInt (.num (.int i)) old = some i := by
  simp only [IntOk, decide_eq_true_eq] at h
  simp [decodeInt, h]

theorem decodeUint32_nat (n : Nat) (old : Nat) (h : Uint32Ok n = true) :
    decodeUint32 (.num (.int n)) old = some n := by
  simp only [Uint32Ok, decide_eq_true_eq] at h
  simp [decodeUint32]
  omega

theorem Speed_decode_encode (s old : Speed) (h : s.Ok = true) :
    Speed.decode s.encode old = some s := by
  simp only [Speed.Ok, Bool.and_eq_true] at h
  obtain ⟨⟨h1, h2⟩, h3⟩ := h
  obtain ⟨b, y, e⟩ := s
  simp only [Speed.decode, Speed.encode, decodeStruct_obj, decodeMembers_cons, decodeMembers_nil,
    Speed_setField_bandwidth, Speed_setField_bytes, Speed_setField_elapsed,
    decodeUint32_nat _ _ h1, decodeUint32_nat _ _ h2, decodeUint32_nat _ _ h3, Option.map_some',
    Option.some_bind]

theorem Result_decode_encode (r old : Result) : Result.decode r.encode old = some r := by
  obtain ⟨id, url⟩ := r
  simp only [Result.decode, Result.encode, decodeStruct_obj, decodeMembers_cons,
    decodeMembers_nil, Result_setField_id, Result_setField_url, decodeString_str,
    Option.map_some', Option.some_bind]

theorem Ping_decode_encode (std : GoStd) (p : Ping) (h1 : FloatOk std p.Jitter = true)
    (h2 : FloatOk std p.Latency = true) :
    ∃ j, Ping.encode std p = some j ∧ ∀ old, Ping.decode std j old = some p := by
  obtain ⟨j1, e1, d1⟩ := float_roundtrip std _ h1
  obtain ⟨j2, e2, d2⟩ := float_roundtrip std _ h2
  refine ⟨.obj [("jitter", j1), ("latency", j2)], by simp [Ping.encode, e1, e2], fun old => ?_⟩
  obtain ⟨a, b⟩ := p
  simp only [Ping.decode, decodeStruct_obj, decodeMembers_cons, decodeMembers_nil,
    Ping_setField_jitter, Ping_setField_latency, d1, d2, Option.map_some', Option.some_bind]

theorem Interface_decode_encode (std : GoStd) (i : Interface) (h : i.Ok std = true) :
    ∃ j, Interface.encode std i = some j ∧ ∀ old, Interface.decode std j old = some i := by
  simp only [Interface.Ok, Bool.and_eq_true] at h
  obtain ⟨⟨h1, h2⟩, h3⟩ := h
  obtain ⟨t1, e1, d1, _⟩ := ip_roundtrip std _ h1
  obtain ⟨t3, e3, d3, _⟩ := ip_roundtrip std _ h3
  have hm : HardwareAddr.UnmarshalJSON (HardwareAddr.MarshalJSON i.MacAddr) = some i.MacAddr :=
    ParseMAC_toUpper_hwString _ h2
  refine ⟨.obj [("internalIp", .str t1), ("name", .str i.Name),
    ("macAddr", HardwareAddr.MarshalJSON i.MacAddr), ("isVpn", .bool i.IsVPN),
    ("externalIp", .str t3)], by simp [Interface.encode, e1, e3], fun old => ?_⟩
  obtain ⟨a, b, c, d, e⟩ := i
  simp only [Interface.decode, decodeStruct_obj, decodeMembers_cons, decodeMembers_nil,
    Interface_setField_internalIp, Interface_setField_name, Interface_setField_macAddr,
    Interface_setField_isVpn, Interface_setField_externalIp, d1, d3, decodeString_str,
    decodeBool_bool, hm, Option.map_some', Option.some_bind]

theorem Server_decode_encode (std : GoStd) (s : Server) (h : s.Ok std = true) :
    ∃ j, Server.encode std s = some j ∧
      ∀ old : Server, old.IP = [] → Server.decode std j old = some s := by
  simp only [Server.Ok, Bool.and_eq_true] at h
  obtain ⟨⟨h1, h2⟩, h3⟩ := h
  obtain ⟨t, e, d, hz⟩ := ip_roundtrip std _ h3
  obtain ⟨id, name, loc, country, host, port, ip⟩ := s
  by_cases h0 : ip.length = 0
  · have hip : ip = [] := hz h0
    subst hip
    refine ⟨.obj [("id", .num (.int id)), ("name", .str name), ("location", .str loc),
      ("country", .str country), ("host", .str host), ("port", .num (.int port))],
      by simp [Server.encode, e], fun old hold => ?_⟩
    obtain ⟨o1, o2, o3, o4, o5, o6, o7⟩ := old
    simp only at hold
    subst hold
    simp only [Server.decode, decodeStruct_obj, decodeMembers_cons, decodeMembers_nil,
      Server_setField_id, Server_setField_name, Server_setField_location,
      Server_setField_country, Server_setField_host, Server_setField_port, decodeString_str,
      decodeInt_int _ _ h1, decodeInt_int _ _ h2, Option.map_some', Option.some_bind]
  · refine ⟨.obj [("id", .num (.int id)), ("name", .str name), ("location", .str loc),
      ("country", .str country), ("host", .str host), ("port", .num (.int port)),
      ("ip", .str t)], by simp [Server.encode, e, h0], fun old _ => ?_⟩
    simp only [Server.decode, decodeStruct_obj, decodeMembers_cons, decodeMembers_nil,
      Server_setField_id, Server_setField_name, Server_setField_location,
      Server_setField_country, Server_setField_host, Server_setField_port, Server_setField_ip,
      decodeString_str, decodeInt_int _ _ h1, decodeInt_int _ _ h2, d, Option.map_some',
      Option.some_bind]

theorem encodeServers_roundtrip (std : GoStd) (xs : List Server)
    (h : xs.all (Server.Ok std) = true) :
    ∃ js, encodeServers std xs = some js ∧ decodeServerItems std js [] = some xs := by
  induction xs with
  | nil => exact ⟨[], rfl, rfl⟩
  | cons s rest ih =>
    simp only [List.all_cons, Bool.and_eq_true] at h
    obtain ⟨j, e, d⟩ := Server_decode_encode std s h.1
    obtain ⟨js, es, ds⟩ := ih h.2
    refine ⟨j :: js, by simp [encodeServers, e, es], ?_⟩
    simp [decodeServerItems, d Server.zero rfl, ds]

theorem ServerList_decode_encode (std : GoStd) (l : ServerList) (h : l.Ok std = true) :
    ∃ j, ServerList.encode std l = some j ∧
      ServerList.decode std j ServerList.zero = some l := by
  obtain ⟨⟨ty, ts⟩, servers⟩ := l
  cases servers with
  | none =>
    refine ⟨.obj [("type", .str ty), ("timestamp", .str ts), ("servers", .null)],
      by simp [ServerList.encode, Header.members], ?_⟩
    simp only [ServerList.decode, decodeStruct_obj, decodeMembers_cons, decodeMembers_nil,
      ServerList_setField_type, ServerList_setField_timestamp, ServerList_setField_servers,
      decodeString_str, decodeServers, ServerList.zero, Option.map_some', Option.some_bind]
  | some xs =>
    obtain ⟨js, es, ds⟩ := encodeServers_roundtrip std xs (by simpa [ServerList.Ok] using h)
    refine ⟨.obj [("type", .str ty), ("timestamp", .str ts), ("servers", .arr js)],
      by simp [ServerList.encode, Header.members, es], ?_⟩
    simp only [ServerList.decode, decodeStruct_obj, decodeMembers_cons, decodeMembers_nil,
      ServerList_setField_type, ServerList_setField_timestamp, ServerList_setField_servers,
      decodeString_str, decodeServers, ServerList.zero, Option.getD_none, ds, Option.map_some',
      Option.some_bind]

theorem TestResult_decode_encode (std : GoStd) (r : TestResult) (h : r.Ok std = true) :
    ∃ j, TestResult.encode std r = some j ∧
      TestResult.decode std j TestResult.zero = some r := by
  simp only [TestResult.Ok, Bool.and_eq_true] at h
  obtain ⟨⟨⟨⟨⟨⟨h1, h2⟩, h3⟩, h4⟩, h5⟩, h6⟩, h7⟩ := h
  obtain ⟨jp, ep, dp⟩ := Ping_decode_encode std r.Ping h1 h2
  obtain ⟨jl, el, dl⟩ := float_roundtrip std _ h5
  obtain ⟨ji, ei, di⟩ := Interface_decode_encode std r.Interface h6
  obtain ⟨js, es, ds⟩ := Server_decode_encode std r.Server h7
  refine ⟨.obj [("type", .str r.Header.Type_), ("timestamp", .str r.Header.Timestamp),
    ("ping", jp), ("download", r.Download.encode), ("upload", r.Upload.encode),
    ("packetLoss", jl), ("isp", .str r.ISP), ("interface", ji), ("server", js),
    ("result", r.Result.encode)],
    by simp [TestResult.encode, Header.members, ep, el, ei, es], ?_⟩
  obtain ⟨⟨ty, ts⟩, ping, down, up, loss, isp, iface, server, result⟩ := r
  simp only [TestResult.decode, decodeStruct_obj, decodeMembers_cons, decodeMembers_nil,
    TestResult_setField_type, TestResult_setField_timestamp, TestResult_setField_ping,
    TestResult_setField_download, TestResult_setField_upload, TestResult_setField_packetLoss,
    TestResult_setField_isp, TestResult_setField_interface, TestResult_setField_server,
    TestResult_setField_result, decodeString_str, dp, dl, di, ds Server.zero rfl,
    Speed_decode_encode _ _ h3, Speed_decode_encode _ _ h4, Result_decode_encode,
    TestResult.zero, Option.map_some', Option.some_bind]

theorem decodeMembers_inv {α : Type} (P : α → Prop) (step : String → Json → α → Option α)
    (hstep : ∀ k v a b, P a → step k v a = some b → P b) :
    ∀ (ms : List (String × Json)) (a b : α), P a → decodeMembers step ms a = some b → P b := by
  intro ms
  induction ms with
  | nil =>
    intro a b ha h
    rw [decodeMembers_nil] at h
    cases h
    exact ha
  | cons kv rest ih =>
    intro a b ha h
    obtain ⟨k, v⟩ := kv
    rw [decodeMembers_cons] at h
    cases hs : step k v a with
    | none => rw [hs] at h; cases h
    | some c =>
      rw [hs, Option.some_bind] at h
      exact ih c b (hstep k v a c ha hs) h

theorem decodeStruct_inv {α : Type} (P : α → Prop) (step : String → Json → α → Option α)
    (hstep : ∀ k v a b, P a → step k v a = some b → P b) (j : Json) (a b : α) (ha : P a)
    (h : decodeStruct step j a = some b) : P b := by
  cases j with
  | obj ms => exact decodeMembers_inv P step hstep ms a b ha h
  | null =>
    have : some a = some b := h
    cases this
    exact ha
  | bool _ => cases h
  | num _ => cases h
  | str _ => cases h
  | arr _ => cases h

theorem map_eq_some_elim {α β : Type} {f : α → β} {o : Option α} {b : β}
    (h : o.map f = some b) : ∃ x, o = some x ∧ b = f x := by
  cases o with
  | none => cases h
  | some x =>
    refine ⟨x, rfl, ?_⟩
    have : some (f x) = some b := h
    cases this
    rfl

theorem decodeInt_ok (v : Json) (old x : Int) (hold : IntOk old = true)
    (h : decodeInt v old = some x) : IntOk x = true := by
  unfold decodeInt at h
  split at h
  · cases h; exact hold
  · split_ifs at h with hc
    cases h
    simp only [IntOk, decide_eq_true_eq]
    norm_num at hc
    exact hc
  · split_ifs at h
    cases h
    decide
  · cases h

theorem decodeUint32_ok (v : Json) (old x : Nat) (hold : Uint32Ok old = true)
    (h : decodeUint32 v old = some x) : Uint32Ok x = true := by
  unfold decodeUint32 at h
  split at h
  · cases h; exact hold
  · split_ifs at h with hc
    cases h
    simp only [Uint32Ok, decide_eq_true_eq]
    norm_num at hc
    omega
  · cases h

theorem decodeFloat_ok (std : GoStd) (hstd : std.Lawful) (v : Json) (old x : Float64)
    (hold : FloatOk std old = true) (h : decodeFloat std v old = some x) :
    FloatOk std x = true := by
  unfold decodeFloat at h
  split at h
  · cases h; exact hold
  · exact hstd.2.1 _ _ h
  · cases h

theorem decodeIP_ok (std : GoStd) (hstd : std.Lawful) (v : Json) (x : IP)
    (h : decodeIP std v = some x) : IPOk std x = true := by
  unfold decodeIP at h
  split at h
  · cases h; rfl
  · unfold ipUnmarshalText at h
    split_ifs at h
    · cases h; rfl
    · exact hstd.2.2 _ _ h
  · cases h

theorem macGroups2_length (sep : Char) : ∀ (n : Nat) (s : List Char) (l : List Byte),
    macGroups2 sep n s = some l → l.length = n := by
  intro n
  induction n with
  | zero =>
    intro s l h
    have : some [] = some l := h
    cases this
    rfl
  | succ n ih =>
    intro s l h
    rw [macGroups2] at h
    cases hb : xtoi2 s sep with
    | none => simp [hb] at h
    | some b =>
      cases hr : macGroups2 sep n (s.drop 3) with
      | none => simp [hb, hr] at h
      | some rest =>
        simp [hb, hr] at h
        subst h
        simp [ih _ _ hr]

theorem macGroups4_length (sep : Char) : ∀ (n : Nat) (s : List Char) (l : List Byte),
    macGroups4 sep n s = some l → l.length = 2 * n := by
  intro n
  induction n with
  | zero =>
    intro s l h
    have : some [] = some l := h
    cases this
    rfl
  | succ n ih =>
    intro s l h
    rw [macGroups4] at h
    cases hb : xtoi2 (s.take 2) (Char.ofNat 0) with
    | none => simp [hb] at h
    | some b =>
      cases hc : xtoi2 (s.drop 2) sep with
      | none => simp [hb, hc] at h
      | some c =>
        cases hr : macGroups4 sep n (s.drop 5) with
        | none => simp [hb, hc, hr] at h
        | some rest =>
          simp [hb, hc, hr] at h
          subst h
          simp [ih _ _ hr]
          omega

theorem ParseMAC_ok (s : String) (a : HardwareAddr) (h : ParseMAC s = some a) :
    MacOk a = true := by
  unfold ParseMAC at h
  simp only at h
  split_ifs at h with h1 h2 h3 h4 h5 h6 h7
  · have hl := macGroups2_length _ _ _ _ h
    simp only [MacOk, Bool.or_eq_true, decide_eq_true_eq]
    omega
  · have hl := macGroups4_length _ _ _ _ h
    simp only [MacOk, Bool.or_eq_true, decide_eq_true_eq]
    omega

theorem Server_setField_ok (std : GoStd) (hstd : std.Lawful) (k : String) (v : Json)
    (a b : Server) (ha : a.Ok std = true) (h : Server.setField std k v a = some b) :
    b.Ok std = true := by
  simp only [Server.Ok, Bool.and_eq_true] at ha ⊢
  obtain ⟨⟨h1, h2⟩, h3⟩ := ha
  unfold Server.setField at h
  split_ifs at h
  · obtain ⟨x, hx, rfl⟩ := map_eq_some_elim h
    exact ⟨⟨decodeInt_ok _ _ _ h1 hx, h2⟩, h3⟩
  · obtain ⟨x, hx, rfl⟩ := map_eq_some_elim h
    exact ⟨⟨h1, h2⟩, h3⟩
  · obtain ⟨x, hx, rfl⟩ := map_eq_some_elim h
    exact ⟨⟨h1, h2⟩, h3⟩
  · obtain ⟨x, hx, rfl⟩ := map_eq_some_elim h
    exact ⟨⟨h1, h2⟩, h3⟩
  · obtain ⟨x, hx, rfl⟩ := map_eq_some_elim h
    exact ⟨⟨h1, h2⟩, h3⟩
  · obtain ⟨x, hx, rfl⟩ := map_eq_some_elim h
    exact ⟨⟨h1, decodeInt_ok _ _ _ h2 hx⟩, h3⟩
  · obtain ⟨x, hx, rfl⟩ := map_eq_some_elim h
    exact ⟨⟨h1, h2⟩, decodeIP_ok std hstd _ _ hx⟩
  · cases h
    exact ⟨⟨h1, h2⟩, h3⟩

theorem Server_decode_ok (std : GoStd) (hstd : std.Lawful) (j : Json) (a b : Server)
    (ha : a.Ok std = true) (h : Server.decode std j a = some b) : b.Ok std = true :=
  decodeStruct_inv (fun s => s.Ok std = true) _ (Server_setField_ok std hstd) j a b ha h

theorem decodeServerItems_ok (std : GoStd) (hstd : std.Lawful) :
    ∀ (js : List Json) (olds xs : List Server), olds.all (Server.Ok std) = true →
      decodeServerItems std js olds = some xs → xs.all (Server.Ok std) = true := by
  intro js
  induction js with
  | nil =>
    intro olds xs _ h
    cases olds <;> (cases h; rfl)
  | cons j rest ih =>
    intro olds xs hold h
    cases olds with
    | nil =>
      rw [decodeServerItems] at h
      cases hs : Server.decode std j Server.zero with
      | none => simp [hs] at h
      | some s =>
        cases hr : decodeServerItems std rest [] with
        | none => simp [hs, hr] at h
        | some r =>
          simp [hs, hr] at h
          subst h
          simp only [List.all_cons, Bool.and_eq_true]
          exact ⟨Server_decode_ok std hstd j Server.zero _ rfl hs, ih [] r rfl hr⟩
    | cons o os =>
      simp only [List.all_cons, Bool.and_eq_true] at hold
      rw [decodeServerItems] at h
      cases hs : Server.decode std j o with
      | none => simp [hs] at h
      | some s =>
        cases hr : decodeServerItems std rest os with
        | none => simp [hs, hr] at h
        | some r =>
          simp [hs, hr] at h
          subst h
          simp only [List.all_cons, Bool.and_eq_true]
          exact ⟨Server_decode_ok std hstd j _ _ hold.1 hs, ih os r hold.2 hr⟩

theorem ServerList_setField_ok (std : GoStd) (hstd : std.Lawful) (k : String) (v : Json)
    (a b : ServerList) (ha : a.Ok std = true) (h : ServerList.setField std k v a = some b) :
    b.Ok std = true := by
  unfold ServerList.setField at h
  split_ifs at h
  · obtain ⟨x, hx, rfl⟩ := map_eq_some_elim h
    exact ha
  · obtain ⟨x, hx, rfl⟩ := map_eq_some_elim h
    exact ha
  · obtain ⟨x, hx, rfl⟩ := map_eq_some_elim h
    unfold decodeServers at hx
    split at hx
    · cases hx; rfl
    · obtain ⟨y, hy, rfl⟩ := map_eq_some_elim hx
      exact decodeServerItems_ok std hstd _ _ _ ha hy
    · cases hx
  · cases h
    exact ha

theorem ServerList_decode_ok (std : GoStd) (hstd : std.Lawful) (j : Json) (l : ServerList)
    (h : ServerList.decode std j ServerList.zero = some l) : l.Ok std = true :=
  decodeStruct_inv (fun s => s.Ok std = true) _ (ServerList_setField_ok std hstd) j _ l rfl h

theorem Speed_setField_ok (k : String) (v : Json) (a b : Speed) (ha : a.Ok = true)
    (h : Speed.setField k v a = some b) : b.Ok = true := by
  simp only [Speed.Ok, Bool.and_eq_true] at ha ⊢
  obtain ⟨⟨h1, h2⟩, h3⟩ := ha
  unfold Speed.setField at h
  split_ifs at h
  · obtain ⟨x, hx, rfl⟩ := map_eq_some_elim h
    exact ⟨⟨decodeUint32_ok _ _ _ h1 hx, h2⟩, h3⟩
  · obtain ⟨x, hx, rfl⟩ := map_eq_some_elim h
    exact ⟨⟨h1, decodeUint32_ok _ _ _ h2 hx⟩, h3⟩
  · obtain ⟨x, hx, rfl⟩ := map_eq_some_elim h
    exact ⟨⟨h1, h2⟩, decodeUint32_ok _ _ _ h3 hx⟩
  · cases h
    exact ⟨⟨h1, h2⟩, h3⟩

theorem Speed_decode_ok (j : Json) (a b : Speed) (ha : a.Ok = true)
    (h : Speed.decode j a = some b) : b.Ok = true :=
  decodeStruct_inv (fun s => s.Ok = true) _ Speed_setField_ok j a b ha h

theorem Ping_setField_ok (std : GoStd) (hstd : std.Lawful) (k : String) (v : Json) (a b : Ping)
    (ha : FloatOk std a.Jitter = true ∧ FloatOk std a.Latency = true)
    (h : Ping.setField std k v a = some b) :
    FloatOk std b.Jitter = true ∧ FloatOk std b.Latency = true := by
  unfold Ping.setField at h
  split_ifs at h
  · obtain ⟨x, hx, rfl⟩ := map_eq_some_elim h
    exact ⟨decodeFloat_ok std hstd _ _ _ ha.1 hx, ha.2⟩
  · obtain ⟨x, hx, rfl⟩ := map_eq_some_elim h
    exact ⟨ha.1, decodeFloat_ok std hstd _ _ _ ha.2 hx⟩
  · cases h
    exact ha

theorem Ping_decode_ok (std : GoStd) (hstd : std.Lawful) (j : Json) (a b : Ping)
    (ha : FloatOk std a.Jitter = true ∧ FloatOk std a.Latency = true)
    (h : Ping.decode std j a = some b) :
    FloatOk std b.Jitter = true ∧ FloatOk std b.Latency = true :=
  decodeStruct_inv (fun p => FloatOk std p.Jitter = true ∧ FloatOk std p.Latency = true) _
    (Ping_setField_ok std hstd) j a b ha h

theorem Interface_setField_ok (std : GoStd) (hstd : std.Lawful) (k : String) (v : Json)
    (a b : Interface) (ha : a.Decoded std = true) (h : Interface.setField std k v a = some b) :
    b.Decoded std = true := by
  simp only [Interface.Decoded, Bool.and_eq_true] at ha ⊢
  obtain ⟨⟨h1, h2⟩, h3⟩ := ha
  unfold Interface.setField at h
  split_ifs at h
  · obtain ⟨x, hx, rfl⟩ := map_eq_some_elim h
    exact ⟨⟨decodeIP_ok std hstd _ _ hx, h2⟩, h3⟩
  · obtain ⟨x, hx, rfl⟩ := map_eq_some_elim h
    exact ⟨⟨h1, h2⟩, h3⟩
  · obtain ⟨x, hx, rfl⟩ := map_eq_some_elim h
    have hm : MacOk x = true := ParseMAC_ok _ _ hx
    exact ⟨⟨h1, by simp [hm]⟩, h3⟩
  · obtain ⟨x, hx, rfl⟩ := map_eq_some_elim h
    exact ⟨⟨h1, h2⟩, h3⟩
  · obtain ⟨x, hx, rfl⟩ := map_eq_some_elim h
    exact ⟨⟨h1, h2⟩, decodeIP_ok std hstd _ _ hx⟩
  · cases h
    exact ⟨⟨h1, h2⟩, h3⟩

theorem Interface_decode_ok (std : GoStd) (hstd : std.Lawful) (j : Json) (a b : Interface)
    (ha : a.Decoded std = true) (h : Interface.decode std j a = some b) :
    b.Decoded std = true :=
  decodeStruct_inv (fun i => i.Decoded std = true) _ (Interface_setField_ok std hstd) j a b ha h


set_option maxHeartbeats 2000000 in
theorem TestResult_setField_ok (std : GoStd) (hstd : std.Lawful) (k : String) (v : Json)
    (a b : TestResult) (ha : a.Decoded std = true)
    (h : TestResult.setField std k v a = some b) : b.Decoded std = true := by
  simp only [TestResult.Decoded, Bool.and_eq_true] at ha ⊢
  obtain ⟨⟨⟨⟨⟨⟨h1, h2⟩, h3⟩, h4⟩, h5⟩, h6⟩, h7⟩ := ha
  unfold TestResult.setField at h
  split_ifs at h
  · obtain ⟨x, hx, rfl⟩ := map_eq_some_elim h
    exact ⟨⟨⟨⟨⟨⟨h1, h2⟩, h3⟩, h4⟩, h5⟩, h6⟩, h7⟩
  · obtain ⟨x, hx, rfl⟩ := map_eq_some_elim h
    exact ⟨⟨⟨⟨⟨⟨h1, h2⟩, h3⟩, h4⟩, h5⟩, h6⟩, h7⟩
  · obtain ⟨x, hx, rfl⟩ := map_eq_some_elim h
    obtain ⟨p1, p2⟩ := Ping_decode_ok std hstd _ _ _ ⟨h1, h2⟩ hx
    exact ⟨⟨⟨⟨⟨⟨p1, p2⟩, h3⟩, h4⟩, h5⟩, h6⟩, h7⟩
  · obtain ⟨x, hx, rfl⟩ := map_eq_some_elim h
    exact ⟨⟨⟨⟨⟨⟨h1, h2⟩, Speed_decode_ok _ _ _ h3 hx⟩, h4⟩, h5⟩, h6⟩, h7⟩
  · obtain ⟨x, hx, rfl⟩ := map_eq_some_elim h
    exact ⟨⟨⟨⟨⟨⟨h1, h2⟩, h3⟩, Speed_decode_ok _ _ _ h4 hx⟩, h5⟩, h6⟩, h7⟩
  · obtain ⟨x, hx, rfl⟩ := map_eq_some_elim h
    exact ⟨⟨⟨⟨⟨⟨h1, h2⟩, h3⟩, h4⟩, decodeFloat_ok std hstd _ _ _ h5 hx⟩, h6⟩, h7⟩
  · obtain ⟨x, hx, rfl⟩ := map_eq_some_elim h
    exact ⟨⟨⟨⟨⟨⟨h1, h2⟩, h3⟩, h4⟩, h5⟩, h6⟩, h7⟩
  · obtain ⟨x, hx, rfl⟩ := map_eq_some_elim h
    exact ⟨⟨⟨⟨⟨⟨h1, h2⟩, h3⟩, h4⟩, h5⟩, Interface_decode_ok std hstd _ _ _ h6 hx⟩, h7⟩
  · obtain ⟨x, hx, rfl⟩ := map_eq_some_elim h
    exact ⟨⟨⟨⟨⟨⟨h1, h2⟩, h3⟩, h4⟩, h5⟩, h6⟩, Server_decode_ok std hstd _ _ _ h7 hx⟩
  · obtain ⟨x, hx, rfl⟩ := map_eq_some_elim h
    exact ⟨⟨⟨⟨⟨⟨h1, h2⟩, h3⟩, h4⟩, h5⟩, h6⟩, h7⟩
  · cases h
    exact ⟨⟨⟨⟨⟨⟨h1, h2⟩, h3⟩, h4⟩, h5⟩, h6⟩, h7⟩

theorem TestResult.zero_decoded (std : GoStd) (hstd : std.Lawful) :
    TestResult.zero.Decoded std = true := by
  have h0 := hstd.1
  simp only [TestResult.Decoded, TestResult.zero, h0, Bool.true_and]
  rfl

theorem TestResult_decode_ok (std : GoStd) (hstd : std.Lawful) (j : Json) (r : TestResult)
    (h : TestResult.decode std j TestResult.zero = some r) : r.Decoded std = true :=
  decodeStruct_inv (fun s => s.Decoded std = true) _ (TestResult_setField_ok std hstd) j _ r
    (TestResult.zero_decoded std hstd) h

theorem TestResult.ok_of_decoded (std : GoStd) (r : TestResult) (h : r.Decoded std = true)
    (hmac : r.Interface.MacAddr ≠ []) : r.Ok std = true := by
  simp only [TestResult.Decoded, Interface.Decoded, Bool.and_eq_true, Bool.or_eq_true,
    decide_eq_true_eq] at h
  simp only [TestResult.Ok, Interface.Ok, Bool.and_eq_true]
  obtain ⟨⟨⟨⟨⟨⟨h1, h2⟩, h3⟩, h4⟩, h5⟩, ⟨⟨i1, i2⟩, i3⟩⟩, h7⟩ := h
  refine ⟨⟨⟨⟨⟨⟨h1, h2⟩, h3⟩, h4⟩, h5⟩, ⟨⟨i1, ?_⟩, i3⟩⟩, h7⟩
  rcases i2 with i2 | i2
  · exact absurd (List.length_eq_zero.1 i2) hmac
  · exact i2

/-- The sample parameters satisfy what the statements assume of the library. -/
theorem GoStd.sample_lawful : GoStd.sample.Lawful := by
  refine ⟨rfl, ?_, ?_⟩
  · intro lit f _
    obtain ⟨bits⟩ := f
    simp [FloatOk, GoStd.sample]
  · intro text ip h
    simp only [GoStd.sample] at h
    split_ifs at h with hlen
    have hl := macGroups2_length _ _ _ _ h
    cases ip with
    | nil => simp at hl
    | cons b rest =>
      have hr : rest.length = 15 := by simpa using hl
      have hdata : (toUpper (hwString (b :: rest))).data =
          upperChar (hexDigit (b.val / 16)) :: upperChar (hexDigit (b.val % 16)) ::
            (hwTail rest).map upperChar := by
        simp [toUpper, hwString]
      have hcl : (toUpper (hwString (b :: rest))).data.length = 47 := by
        rw [hdata]
        simp [hwTail_length, hr]
      have hparse : macGroups2 ':' 16 (toUpper (hwString (b :: rest))).data =
          some (b :: rest) := by
        rw [hdata]
        have := macGroups2_upper b rest
        rw [hr] at this
        exact this
      have hlen0 : (toUpper (hwString (b :: rest))).length ≠ 0 := by
        show (toUpper (hwString (b :: rest))).data.length ≠ 0
        omega
      have hcl2 : (toUpper (hwString (b :: rest))).length = 47 := hcl
      simp [IPOk, GoStd.sample, hr, hcl, hcl2, hparse, hlen0]

/-- C9: given library conversions that read back what they write,
(1) a hardware address of 6, 8 or 20 bytes written by `MarshalJSON` is read back
by `UnmarshalJSON`; (2) and (3) a server list or a measurement result whose
strings are valid UTF-8, whose integers are within their types, whose floats and
IP addresses the library reads back, and whose hardware address has 6, 8 or 20
bytes, is written by the encoder and read back unchanged, a `nil` and an empty
byte slice being identified; (4) every server list document that decodes gives a
value whose encoding decodes to that same value; (5) so does every measurement
result document that decodes to a value with a non-empty hardware address;
(6) the empty hardware address is written `""`, which `UnmarshalJSON` rejects. -/
theorem codec_round_trip (std : GoStd) (hstd : std.Lawful) :
    (∀ a : HardwareAddr, MacOk a = true →
      HardwareAddr.UnmarshalJSON (HardwareAddr.MarshalJSON a) = some a) ∧
    (∀ l : ServerList, l.Ok std = true →
      ∃ j, ServerList.encode std l = some j ∧
        ServerList.decode std j ServerList.zero = some l) ∧
    (∀ r : TestResult, r.Ok std = true →
      ∃ j, TestResult.encode std r = some j ∧
        TestResult.decode std j TestResult.zero = some r) ∧
    (∀ (d : Json) (l : ServerList), ServerList.decode std d ServerList.zero = some l →
      ∃ j, ServerList.encode std l = some j ∧
        ServerList.decode std j ServerList.zero = some l) ∧
    (∀ (d : Json) (r : TestResult), TestResult.decode std d TestResult.zero = some r →
      r.Interface.MacAddr ≠ [] →
      ∃ j, TestResult.encode std r = some j ∧
        TestResult.decode std j TestResult.zero = some r) ∧
    (HardwareAddr.MarshalJSON [] = Json.str "" ∧
      HardwareAddr.UnmarshalJSON (HardwareAddr.MarshalJSON []) = none) := by
  refine ⟨fun a h => ParseMAC_toUpper_hwString a h, ServerList_decode_encode std,
    TestResult_decode_encode std, ?_, ?_, rfl, by decide⟩
  · intro d l h
    exact ServerList_decode_encode std l (ServerList_decode_ok std hstd d l h)
  · intro d r h hmac
    exact TestResult_decode_encode std r
      (TestResult.ok_of_decoded std r (TestResult_decode_ok std hstd d r h) hmac)

/-- C9, on a measurement result with a hardware address of 6 bytes
and an address of 16 bytes. -/
theorem codec_round_trip_witness :
    ∃ j, TestResult.encode GoStd.sample sampleResult = some j ∧
      TestResult.decode GoStd.sample j TestResult.zero = some sampleResult :=
  (codec_round_trip GoStd.sample GoStd.sample_lawful).2.2.1 sampleResult (by decide)

/-- C9, where the round trip fails: the encoder writes the zero measurement result with
`"macAddr": ""`, which the decoder rejects; a server list document with an
undeclared member decodes, and re-encoding the decoded value writes no such
member; a hardware address in lower case decodes, and is written back in upper
case. -/
theorem codec_round_trip_counterexample :
    (TestResult.encode GoStd.sample TestResult.zero = some zeroResultJson ∧
      TestResult.decode GoStd.sample zeroResultJson TestResult.zero = none ∧
      HardwareAddr.MarshalJSON [] = Json.str "" ∧
      HardwareAddr.UnmarshalJSON (Json.str "") = none) ∧
    (ServerList.decode GoStd.sample serverListWithCount ServerList.zero =
        some ⟨⟨"serverList", "2020-03-25T19:50:11Z"⟩, some []⟩ ∧
      ServerList.encode GoStd.sample ⟨⟨"serverList", "2020-03-25T19:50:11Z"⟩, some []⟩ =
        some (.obj [("type", .str "serverList"), ("timestamp", .str "2020-03-25T19:50:11Z"),
          ("servers", .arr [])]) ∧
      serverListWithCount.keys = ["type", "timestamp", "servers", "count"]) ∧
    (HardwareAddr.UnmarshalJSON (Json.str "00:1a:2b:3c:4d:5e") = some [0, 26, 43, 60, 77, 94] ∧
      HardwareAddr.MarshalJSON [0, 26, 43, 60, 77, 94] = Json.str "00:1A:2B:3C:4D:5E") := by
  refine ⟨⟨rfl, by decide, rfl, by decide⟩, ⟨by decide, rfl, rfl⟩, by decide, ?_⟩
  simp only [HardwareAddr.MarshalJSON, Json.str.injEq]
  decide

end NetMonitor
